import Mathlib

/-!
Shallow embedding of the cross-regional Dask provisioning app
(`bin/cross-region-dask-aws.ts` and the construct classes under `lib/`).

The CDK app synthesises, for one client region and a list of worker regions,
a list of stacks.  Each stack carries:
  * `name`    — the stack id given in `bin/cross-region-dask-aws.ts`;
  * `region`  — the `env.region` the stack deploys to;
  * `dependsOn` — stack names passed to explicit `addDependency` calls;
  * `refDeps` — stacks referenced through same-region cross-stack object
    references (`Worker.tgw`, `WorkerStacks[x].vpc`, `clientStack.clientTGW`,
    ...), which the deployment toolkit also turns into build-order edges;
  * `resources` — the provisioning-relevant resources the constructor creates,
    each with its construct id, payload, and intra-stack ordering edges
    (`addDependsOn` calls plus attribute references to sibling resources).

Resources that play no role in the networking/parameter protocol (Lustre
filesystems, ECS clusters, notebooks, security groups, log groups, ...) are
not modelled: no claim mentions them and they carry no route, gateway,
peering or parameter state.

The number of private subnets of a VPC is decided by the CDK `Vpc` construct
at deploy time, not by this repository; it enters the model as a parameter
`nsub : String → Nat` giving the private-subnet count of the VPC living in a
given region.
-/

namespace CRD

/-- `IClient` from `bin/interface.ts`. -/
structure IClient where
  region : String
  cidr : String
deriving DecidableEq, Repr

/-- `IWorker` from `bin/interface.ts`. -/
structure IWorker where
  region : String
  cidr : String
  dataset : String
  lustreFileSystemPath : String
deriving DecidableEq, Repr

/-- A route table: either the route table of private subnet `idx` of the VPC
living in `vpcRegion`, or the default association route table of the transit
gateway created in `tgwRegion` (looked up by `TransitGatewayRouteTable`). -/
inductive RouteTable
  | subnetTable (vpcRegion : String) (idx : Nat)
  | gatewayTable (tgwRegion : String)
deriving DecidableEq, Repr

/-- How a `CfnTransitGatewayRoute` names its peering attachment: either a
direct `attrTransitGatewayAttachmentId` reference to the attachment created
from `initRegion` toward `peerRegion`, or an SSM parameter fetched from
`sourceRegion` under `key`. -/
inductive AttachmentRef
  | direct (initRegion peerRegion : String)
  | fetched (sourceRegion key : String)
deriving DecidableEq, Repr

/-- The value stored by a `StringParameter` (`stringValue` in the source). -/
inductive ParamValue
  | tgwRef (region : String)
  | attachmentIdOf (initRegion peerRegion : String)
  | hostedZoneId (region : String)
  | openSearchEndpoint (region : String)
  | openSearchArnOf (region : String)
  | regionName (r : String)
  | datasetBucket (dataset : String)
deriving DecidableEq, Repr

/-- The provisioning-relevant resource kinds appearing in the stacks. -/
inductive Res
  | transitGateway
  | vpcNetwork (cidr : String)
  | vpcAttachment
  | peeringAttachment (peerRegion : String)
  | acceptAttachment (attInitRegion attPeerRegion callRegion : String)
  | publishParam (key : String) (value : ParamValue)
  | readParam (key : String) (sourceRegion : String)
  | subnetRoute (table : RouteTable) (destCidr : String)
  | tgwRoute (table : RouteTable) (destCidr : String) (target : AttachmentRef)
  | tgwRouteTableLookup (tgwRegion : String)
  | hostedZoneAssoc
deriving DecidableEq, Repr

/-- A resource instance: construct id, payload, and the construct ids of the
same-stack resources it is ordered after (explicit `addDependsOn` plus
attribute references). -/
structure Resource where
  cid : String
  res : Res
  deps : List String
deriving DecidableEq, Repr

/-- One synthesised stack. -/
structure StackDef where
  name : String
  region : String
  dependsOn : List String
  refDeps : List String
  resources : List Resource
deriving DecidableEq, Repr

/-- `ClientRegion` (`lib/ClientConstructs/client-region-stack.ts`):
VPC, transit gateway, `tgw-param` publication, local VPC attachment, the
per-worker subnet routes toward each worker CIDR (each `addDependsOn` the
VPC attachment), the private-namespace / OpenSearch parameter publications. -/
def ClientRegion (client : IClient) (workers : List IWorker)
    (nsub : String → Nat) : StackDef :=
  { name := "Client-Region"
    region := client.region
    dependsOn := []
    refDeps := []
    resources :=
      [ ⟨"Scheduler VPC", .vpcNetwork client.cidr, []⟩,
        ⟨"TGW", .transitGateway, []⟩,
        ⟨"TGW Param", .publishParam ("tgw-param-" ++ client.region)
          (.tgwRef client.region), ["TGW"]⟩,
        ⟨"tgw-attachment", .vpcAttachment, ["TGW", "Scheduler VPC"]⟩ ]
      ++ workers.flatMap (fun w =>
          (List.range (nsub client.region)).map (fun i =>
            ⟨"Subnet to TGW - " ++ toString i ++ " - " ++ w.region,
             .subnetRoute (.subnetTable client.region i) w.cidr,
             ["tgw-attachment"]⟩))
      ++ [ ⟨"PrivateNP Param",
            .publishParam ("privatenp-hostedid-param-" ++ client.region)
              (.hostedZoneId client.region), []⟩,
           ⟨"OpenSearch HostName",
            .publishParam ("client-opensearch-domain-" ++ client.region)
              (.openSearchEndpoint client.region), []⟩,
           ⟨"OpenSearch ARN",
            .publishParam ("client-opensearch-arn-" ++ client.region)
              (.openSearchArnOf client.region), []⟩ ] }

/-- `WorkerRegion.setupEnvironment` (`lib/WorkerConstructs/worker-region-stack.ts`):
transit gateway plus `tgw-param` publication, read of the client gateway
parameter, peering attachment toward the client, `AcceptTGWRequestClient`
executed in the client region, worker VPC and its gateway attachment,
`tgw-attachmentid` publication, per-subnet routes toward the client CIDR
(each `addDependsOn` the peering attachment), and the hosted-zone
association.  The enclosing stack is given `addDependency(clientStack)` in
`bin/cross-region-dask-aws.ts`. -/
def WorkerRegion (client : IClient) (worker : IWorker)
    (nsub : String → Nat) : StackDef :=
  { name := "Worker-Region-" ++ worker.region
    region := worker.region
    dependsOn := ["Client-Region"]
    refDeps := []
    resources :=
      [ ⟨"TGW", .transitGateway, []⟩,
        ⟨"TGW Param - " ++ worker.region,
         .publishParam ("tgw-param-" ++ worker.region) (.tgwRef worker.region),
         ["TGW"]⟩,
        ⟨"TGW Param", .readParam ("tgw-param-" ++ client.region) client.region,
         []⟩,
        ⟨"Peering Connection", .peeringAttachment client.region,
         ["TGW", "TGW Param"]⟩,
        ⟨"Accept Request",
         .acceptAttachment worker.region client.region client.region,
         ["Peering Connection"]⟩,
        ⟨"Worker VPC", .vpcNetwork worker.cidr, []⟩,
        ⟨"tgw-attachment", .vpcAttachment, ["TGW", "Worker VPC"]⟩,
        ⟨"TGW Attach Param",
         .publishParam ("tgw-attachmentid-" ++ worker.region)
           (.attachmentIdOf worker.region client.region),
         ["Peering Connection"]⟩ ]
      ++ (List.range (nsub worker.region)).map (fun i =>
          ⟨"Subnet to TGW - " ++ toString i,
           .subnetRoute (.subnetTable worker.region i) client.cidr,
           ["Peering Connection"]⟩)
      ++ [ ⟨"PrivateNP Param",
            .readParam ("privatenp-hostedid-param-" ++ client.region)
              client.region, []⟩,
           ⟨"AssociateVPCWithHostedZone", .hostedZoneAssoc,
            ["PrivateNP Param", "Worker VPC"]⟩ ] }

/-- `WorkerRegionTransitGatewayRoute` (`lib/WorkerConstructs/worker-region-tgw-route.ts`):
looks up the default route table of the `tgw` prop (a gateway created in
`tgwOwnerRegion`) and appends a `CfnTransitGatewayRoute` for `client.cidr`
via the `attachmentId` prop (the peering attachment `attachment.1 →
attachment.2`, referenced by attribute).  `name`, `region` and the stack
dependencies are supplied at the call sites in the app entry point. -/
def WorkerRegionTransitGatewayRoute (name region : String) (client : IClient)
    (tgwOwnerRegion : String) (attachment : String × String)
    (dependsOn refDeps : List String) : StackDef :=
  { name := name
    region := region
    dependsOn := dependsOn
    refDeps := refDeps
    resources :=
      [ ⟨"Transit Gateway", .tgwRouteTableLookup tgwOwnerRegion, []⟩,
        ⟨"TGW Route",
         .tgwRoute (.gatewayTable tgwOwnerRegion) client.cidr
           (.direct attachment.1 attachment.2),
         ["Transit Gateway"]⟩ ] }

/-- `ClientToWorkerTransitGatewayRoute` (`lib/ClientConstructs/client-region-tgw-route.ts`):
looks up the client gateway default route table, fetches
`tgw-attachmentid-<worker.region>` from the worker region, and appends a
`CfnTransitGatewayRoute` for `worker.cidr` via the fetched attachment id. -/
def ClientToWorkerTransitGatewayRoute (name region : String)
    (clientTgwOwnerRegion : String) (worker : IWorker)
    (dependsOn refDeps : List String) : StackDef :=
  { name := name
    region := region
    dependsOn := dependsOn
    refDeps := refDeps
    resources :=
      [ ⟨"Transit Gateway", .tgwRouteTableLookup clientTgwOwnerRegion, []⟩,
        ⟨"Transit Attachment ID - " ++ worker.region,
         .readParam ("tgw-attachmentid-" ++ worker.region) worker.region, []⟩,
        ⟨"TGW Route - " ++ worker.region,
         .tgwRoute (.gatewayTable clientTgwOwnerRegion) worker.cidr
           (.fetched worker.region ("tgw-attachmentid-" ++ worker.region)),
         ["Transit Gateway", "Transit Attachment ID - " ++ worker.region]⟩ ] }

/-- `WorkerToWorkerTGW` (`lib/WorkerConstructs/worker-to-worker-tgw.ts`):
reads the peer and local gateway parameters, creates the peering attachment
toward `peerWorker`, publishes its id under
`tgw-attachmentid-<region>-<peerWorker.region>`, accepts the request from
the peer region, and adds per-subnet routes (of the `vpc` prop, the VPC of
`vpcOwnerRegion`) toward `peerWorker.cidr`, each `addDependsOn` the
attachment. -/
def WorkerToWorkerTGW (name region : String) (peerWorker : IWorker)
    (vpcOwnerRegion : String) (nsub : String → Nat)
    (refDeps : List String) : StackDef :=
  { name := name
    region := region
    dependsOn := []
    refDeps := refDeps
    resources :=
      [ ⟨"TGW Param - " ++ peerWorker.region,
         .readParam ("tgw-param-" ++ peerWorker.region) peerWorker.region, []⟩,
        ⟨"TGW Param - " ++ region, .readParam ("tgw-param-" ++ region) region,
         []⟩,
        ⟨"Peering Connection", .peeringAttachment peerWorker.region,
         ["TGW Param - " ++ peerWorker.region, "TGW Param - " ++ region]⟩,
        ⟨"Peering ID - " ++ peerWorker.region,
         .publishParam ("tgw-attachmentid-" ++ region ++ "-" ++ peerWorker.region)
           (.attachmentIdOf region peerWorker.region),
         ["Peering Connection"]⟩,
        ⟨"Accept Request",
         .acceptAttachment region peerWorker.region peerWorker.region,
         ["Peering Connection"]⟩ ]
      ++ (List.range (nsub vpcOwnerRegion)).map (fun i =>
          ⟨"Subnet to TGW - " ++ toString i,
           .subnetRoute (.subnetTable vpcOwnerRegion i) peerWorker.cidr,
           ["Peering Connection"]⟩) }

/-- `InterRegionTransitGatewayRoute` (`lib/WorkerConstructs/interregion-worker-tgw-route.ts`):
looks up the local gateway default route table, fetches the pair attachment
id `tgw-attachmentid-<peerWorker.region>-<region>` from the peer region,
appends a gateway route for `peerWorker.cidr` via it, and adds per-subnet
routes toward `peerWorker.cidr` (these `CfnRoute`s carry no `addDependsOn`). -/
def InterRegionTransitGatewayRoute (name region : String) (peerWorker : IWorker)
    (tgwOwnerRegion vpcOwnerRegion : String) (nsub : String → Nat)
    (dependsOn refDeps : List String) : StackDef :=
  { name := name
    region := region
    dependsOn := dependsOn
    refDeps := refDeps
    resources :=
      [ ⟨"Transit Gateway", .tgwRouteTableLookup tgwOwnerRegion, []⟩,
        ⟨"Transit Attachment ID - " ++ region,
         .readParam ("tgw-attachmentid-" ++ peerWorker.region ++ "-" ++ region)
           peerWorker.region, []⟩,
        ⟨"TGW Route",
         .tgwRoute (.gatewayTable tgwOwnerRegion) peerWorker.cidr
           (.fetched peerWorker.region
             ("tgw-attachmentid-" ++ peerWorker.region ++ "-" ++ region)),
         ["Transit Gateway", "Transit Attachment ID - " ++ region]⟩ ]
      ++ (List.range (nsub vpcOwnerRegion)).map (fun i =>
          ⟨"Subnet to TGW - " ++ toString i,
           .subnetRoute (.subnetTable vpcOwnerRegion i) peerWorker.cidr, []⟩) }

/-- `SyncLustreToOpenSearch` (`lib/WorkerConstructs/sync-lustre-to-opensearch.ts`),
restricted to its parameter traffic: reads the client OpenSearch ARN and
publishes the two per-worker helper parameters. -/
def SyncLustreToOpenSearch (name region : String) (client : IClient)
    (worker : IWorker) (refDeps : List String) : StackDef :=
  { name := name
    region := region
    dependsOn := []
    refDeps := refDeps
    resources :=
      [ ⟨"OpenSearchARN",
         .readParam ("client-opensearch-arn-" ++ client.region) client.region,
         []⟩,
        ⟨"ClientRegionForEC2",
         .publishParam ("client-region-for-dask-worker-" ++ region)
           (.regionName client.region), []⟩,
        ⟨"WorkerDataProjectForEC2",
         .publishParam ("worker-region-data-bucket-for-dask-worker-" ++ region)
           (.datasetBucket worker.dataset), []⟩ ] }

/-- The three stacks `bin/cross-region-dask-aws.ts` creates inside the
per-worker loop (lines 33–70): the worker bootstrap stack (with an explicit
dependency on the client stack), its gateway-route stack, and the
client-side gateway-route stack (both with explicit dependencies on the
worker stack). -/
def workerSection (client : IClient) (nsub : String → Nat)
    (w : IWorker) : List StackDef :=
  [ WorkerRegion client w nsub,
    WorkerRegionTransitGatewayRoute ("Worker-Region-TGW-Route-" ++ w.region)
      w.region client w.region (w.region, client.region)
      ["Worker-Region-" ++ w.region] ["Worker-Region-" ++ w.region],
    ClientToWorkerTransitGatewayRoute ("Client-Region-TGW-Route-" ++ w.region)
      client.region client.region w
      ["Worker-Region-" ++ w.region] ["Client-Region"] ]

/-- The three stacks created for one worker-to-worker pair `(wx, wy)`
(`bin/cross-region-dask-aws.ts` lines 77–118): the peering stack (no
explicit `addDependency`; it references `WorkerStacks[x].vpc`), and the two
gateway-route stacks, each with an explicit dependency on the peering
stack. -/
def w2wTriple (nsub : String → Nat) (wx wy : IWorker) : List StackDef :=
  [ WorkerToWorkerTGW
      ("TGW-Peer-Region-" ++ wx.region ++ "-to-" ++ wy.region) wx.region wy
      wx.region nsub ["Worker-Region-" ++ wx.region],
    WorkerRegionTransitGatewayRoute
      ("Worker-Region-TGW-Route-" ++ wx.region ++ "-to-" ++ wy.region)
      wx.region ⟨wy.region, wy.cidr⟩ wx.region (wx.region, wy.region)
      ["TGW-Peer-Region-" ++ wx.region ++ "-to-" ++ wy.region]
      ["Worker-Region-" ++ wx.region,
       "TGW-Peer-Region-" ++ wx.region ++ "-to-" ++ wy.region],
    InterRegionTransitGatewayRoute
      ("Inter-Region-TGW-Route-" ++ wy.region ++ "-to-" ++ wx.region)
      wy.region wx wy.region wy.region nsub
      ["TGW-Peer-Region-" ++ wx.region ++ "-to-" ++ wy.region]
      ["Worker-Region-" ++ wy.region] ]

/-- The worker-to-worker wiring loop (`bin/cross-region-dask-aws.ts` lines
72–135): each worker is paired with every later worker exactly once
(`index.slice(x + 1)`), and one `SyncLustreToOpenSearch` stack is created
per outer iteration. -/
def w2wSection (client : IClient) (nsub : String → Nat) :
    List IWorker → List StackDef
  | [] => []
  | wx :: rest =>
      (rest.flatMap (w2wTriple nsub wx)
        ++ [SyncLustreToOpenSearch ("ZyncLustreToOpenSearch-" ++ wx.region)
              wx.region client wx ["Worker-Region-" ++ wx.region]])
      ++ w2wSection client nsub rest

/-- The whole app (`bin/cross-region-dask-aws.ts`): the client stack, the
per-worker stacks, then the worker-to-worker wiring. -/
def buildApp (client : IClient) (workers : List IWorker)
    (nsub : String → Nat) : List StackDef :=
  [ClientRegion client workers nsub]
    ++ workers.flatMap (workerSection client nsub)
    ++ w2wSection client nsub workers

/-- The shipped client configuration (`bin/variables.ts`). -/
def defClient : IClient := ⟨"eu-west-2", "10.0.0.0/16"⟩

/-- The shipped worker configuration (`bin/variables.ts`). -/
def defWorkers : List IWorker :=
  [ ⟨"us-east-1", "10.1.0.0/16", "s3://era5-pds", "era5-pds"⟩,
    ⟨"us-west-2", "10.2.0.0/16", "s3://cmip6-pds/CMIP6/ScenarioMIP/MOHC",
     "CMIP6/ScenarioMIP/MOHC"⟩ ]

/-! ### Extraction functions over a synthesised app -/

/-- Classifier picking peering attachments out of a stack of region `reg`. -/
def peeringCls (reg : String) (r : Resource) : Option (String × String) :=
  match r.res with
  | .peeringAttachment p => some (reg, p)
  | _ => none

/-- All peering attachments, as (initiator region = creating stack's region,
peer region) pairs. -/
def peeringsOf (s : StackDef) : List (String × String) :=
  s.resources.filterMap (peeringCls s.region)

/-- All peering attachments of the app. -/
def peeringPairs (app : List StackDef) : List (String × String) :=
  app.flatMap peeringsOf

/-- Classifier picking accept calls. -/
def acceptCls (r : Resource) : Option (String × String × String) :=
  match r.res with
  | .acceptAttachment i p c => some (i, p, c)
  | _ => none

/-- All accept calls, as (attachment initiator, attachment peer, region the
SDK call executes in). -/
def acceptsOf (s : StackDef) : List (String × String × String) :=
  s.resources.filterMap acceptCls

/-- All accept calls of the app. -/
def acceptCalls (app : List StackDef) : List (String × String × String) :=
  app.flatMap acceptsOf

/-- Classifier picking published parameters out of a stack of region `reg`. -/
def publishCls (reg : String) (r : Resource) : Option (String × String × ParamValue) :=
  match r.res with
  | .publishParam k v => some (reg, k, v)
  | _ => none

/-- All published parameters, as (owning region, key, value). -/
def publishesOf (s : StackDef) : List (String × String × ParamValue) :=
  s.resources.filterMap (publishCls s.region)

/-- All published parameters of the app. -/
def publishedParams (app : List StackDef) : List (String × String × ParamValue) :=
  app.flatMap publishesOf

/-- The keys of all published parameters. -/
def paramKeys (app : List StackDef) : List String :=
  (publishedParams app).map (fun e => e.2.1)

/-- The (owning region, key) pairs of all published parameters. -/
def paramRegionKeys (app : List StackDef) : List (String × String) :=
  (publishedParams app).map (fun e => (e.1, e.2.1))

/-- Classifier picking transit gateways out of a stack of region `reg`. -/
def gatewayCls (reg : String) (r : Resource) : Option String :=
  match r.res with
  | .transitGateway => some reg
  | _ => none

/-- Regions of all created transit gateways. -/
def gatewaysOf (s : StackDef) : List String :=
  s.resources.filterMap (gatewayCls s.region)

/-- Regions of all created transit gateways of the app. -/
def gatewayRegions (app : List StackDef) : List String :=
  app.flatMap gatewaysOf

/-- Classifier picking VPC-to-gateway attachments out of a stack of region
`reg`. -/
def vpcAttachCls (reg : String) (r : Resource) : Option String :=
  match r.res with
  | .vpcAttachment => some reg
  | _ => none

/-- Regions of all (non-peering) VPC-to-gateway attachments. -/
def vpcAttachmentsOf (s : StackDef) : List String :=
  s.resources.filterMap (vpcAttachCls s.region)

/-- Regions of all VPC-to-gateway attachments of the app. -/
def vpcAttachmentRegions (app : List StackDef) : List String :=
  app.flatMap vpcAttachmentsOf

/-- Classifier picking subnet-level route entries. -/
def subnetCls (r : Resource) : Option (RouteTable × String) :=
  match r.res with
  | .subnetRoute t d => some (t, d)
  | _ => none

/-- Subnet-level route entries of a stack, as (route table, destination). -/
def subnetRoutesOf (s : StackDef) : List (RouteTable × String) :=
  s.resources.filterMap subnetCls

/-- Subnet-level route entries of the app. -/
def subnetRouteKeys (app : List StackDef) : List (RouteTable × String) :=
  app.flatMap subnetRoutesOf

/-- Classifier picking gateway-level route entries. -/
def tgwRouteCls (r : Resource) : Option (RouteTable × String × AttachmentRef) :=
  match r.res with
  | .tgwRoute t d a => some (t, d, a)
  | _ => none

/-- Gateway-level route entries of a stack, as (route table, destination,
attachment reference). -/
def tgwRoutesOf (s : StackDef) : List (RouteTable × String × AttachmentRef) :=
  s.resources.filterMap tgwRouteCls

/-- Gateway-level route entries of the app. -/
def tgwRouteEntries (app : List StackDef) : List (RouteTable × String × AttachmentRef) :=
  app.flatMap tgwRoutesOf

/-- Every route entry of the app, keyed by (route table, destination CIDR). -/
def routeKeys (app : List StackDef) : List (RouteTable × String) :=
  subnetRouteKeys app ++ (tgwRouteEntries app).map (fun e => (e.1, e.2.1))

/-- Resolve an `AttachmentRef` to the endpoints of the peering attachment it
denotes: a direct reference names them outright, a fetched one is looked up
among the parameters published in the queried region. -/
def resolveRef (app : List StackDef) : AttachmentRef → Option (String × String)
  | .direct i p => some (i, p)
  | .fetched reg key =>
      match (publishedParams app).find? (fun e => e.1 == reg && e.2.1 == key) with
      | some ⟨_, _, .attachmentIdOf i p⟩ => some (i, p)
      | _ => none

/-! ### The declared build-order dependency graph -/

/-- The declared stack-level dependencies of a stack: explicit
`addDependency` targets plus reference-implied edges. -/
def stackDeps (s : StackDef) : List String :=
  s.dependsOn ++ s.refDeps

/-- Dependencies of the stack named `n` in `app`. -/
def depsOfName (app : List StackDef) (n : String) : List String :=
  match app.find? (fun s => s.name == n) with
  | some s => stackDeps s
  | none => []

/-- Fueled transitive dependency closure of a stack name. -/
def depClosure (app : List StackDef) : Nat → String → List String
  | 0, _ => []
  | fuel + 1, n =>
      (depsOfName app n).flatMap (fun d => d :: depClosure app fuel d)

/-- `a` is declared (transitively) to build strictly before `b`. -/
def stackStrictlyBefore (app : List StackDef) (a b : String) : Bool :=
  (depClosure app app.length b).contains a

/-- `b` builds after `a` or is `a` itself. -/
def dependsOnStack (app : List StackDef) (b a : String) : Bool :=
  b == a || stackStrictlyBefore app a b

/-- Intra-stack ordering edges of the resource with construct id `c`. -/
def resDepsOfCid (s : StackDef) (c : String) : List String :=
  match s.resources.find? (fun r => r.cid == c) with
  | some r => r.deps
  | none => []

/-- Fueled transitive closure of intra-stack ordering edges. -/
def resClosure (s : StackDef) : Nat → String → List String
  | 0, _ => []
  | fuel + 1, c =>
      (resDepsOfCid s c).flatMap (fun d => d :: resClosure s fuel d)

/-- The resource at `loc1 = (stack name, construct id)` is ordered strictly
before the one at `loc2` by the declared build-order edges: either its whole
stack builds strictly before `loc2`'s stack, or both live in the same stack
and `loc2` is ordered after `loc1` by intra-stack edges. -/
def resourceBefore (app : List StackDef) (loc1 loc2 : String × String) : Bool :=
  stackStrictlyBefore app loc1.1 loc2.1
    || (loc1.1 == loc2.1
        && (resClosure (match app.find? (fun s => s.name == loc2.1) with
              | some s => s
              | none => ⟨"", "", [], [], []⟩)
            (match app.find? (fun s => s.name == loc2.1) with
              | some s => s.resources.length
              | none => 0) loc2.2).contains loc1.2)

/-! ### List helpers -/

/-- Flat-mapping singletons is mapping. -/
lemma flatMap_single {α β : Type} (f : α → β) (l : List α) :
    (l.flatMap fun x => [f x]) = l.map f :=
  (List.map_eq_flatMap f l).symm

/-- `filterMap` distributes over `flatMap`. -/
lemma filterMap_flatMap {α β γ : Type} (l : List α) (f : α → List β)
    (g : β → Option γ) :
    (l.flatMap f).filterMap g = l.flatMap (fun a => (f a).filterMap g) := by
  induction l with
  | nil => rfl
  | cons a t ih => simp [ih]

/-- A mapped list filter-maps to nothing when the classifier rejects the
shape produced by `f`. -/
lemma filterMap_map_none {α β γ : Type} (g : β → Option γ) (f : α → β)
    (l : List α) (h : ∀ a, g (f a) = none) : (l.map f).filterMap g = [] := by
  induction l with
  | nil => rfl
  | cons a t ih => simp [h, ih]

/-- A mapped list filter-maps to the mapped extraction when the classifier
accepts the shape produced by `f`. -/
lemma filterMap_map_some {α β γ : Type} (g : β → Option γ) (f : α → β)
    (k : α → γ) (l : List α) (h : ∀ a, g (f a) = some (k a)) :
    (l.map f).filterMap g = l.map k := by
  induction l with
  | nil => rfl
  | cons a t ih => simp [h, ih]

/-- The resource shape of a generated per-subnet route segment. -/
def subnetSegRes (cid : Nat → String) (t : Nat → RouteTable) (d : String)
    (dep : List String) (i : Nat) : Resource :=
  ⟨cid i, .subnetRoute (t i) d, dep⟩

@[simp]
lemma filterMap_subnetCls_seg (cid : Nat → String) (t : Nat → RouteTable)
    (d : String) (dep : List String) (l : List Nat) :
    (l.map (subnetSegRes cid t d dep)).filterMap subnetCls =
      l.map (fun i => (t i, d)) :=
  filterMap_map_some subnetCls (subnetSegRes cid t d dep)
    (fun i => (t i, d)) l (fun _ => rfl)

@[simp]
lemma filterMap_comp_subnetCls_seg (cid : Nat → String) (t : Nat → RouteTable)
    (d : String) (dep : List String) (l : List Nat) :
    l.filterMap (subnetCls ∘ subnetSegRes cid t d dep) =
      l.map (fun i => (t i, d)) := by
  rw [← List.filterMap_map]
  exact filterMap_subnetCls_seg cid t d dep l

@[simp]
lemma filterMap_peeringCls_seg (reg : String) (cid : Nat → String)
    (t : Nat → RouteTable) (d : String) (dep : List String) (l : List Nat) :
    (l.map (subnetSegRes cid t d dep)).filterMap (peeringCls reg) = [] :=
  filterMap_map_none (peeringCls reg) (subnetSegRes cid t d dep) l (fun _ => rfl)

@[simp]
lemma filterMap_comp_peeringCls_seg (reg : String) (cid : Nat → String)
    (t : Nat → RouteTable) (d : String) (dep : List String) (l : List Nat) :
    l.filterMap (peeringCls reg ∘ subnetSegRes cid t d dep) = [] := by
  rw [← List.filterMap_map]
  exact filterMap_peeringCls_seg reg cid t d dep l

@[simp]
lemma filterMap_acceptCls_seg (cid : Nat → String) (t : Nat → RouteTable)
    (d : String) (dep : List String) (l : List Nat) :
    (l.map (subnetSegRes cid t d dep)).filterMap acceptCls = [] :=
  filterMap_map_none acceptCls (subnetSegRes cid t d dep) l (fun _ => rfl)

@[simp]
lemma filterMap_comp_acceptCls_seg (cid : Nat → String) (t : Nat → RouteTable)
    (d : String) (dep : List String) (l : List Nat) :
    l.filterMap (acceptCls ∘ subnetSegRes cid t d dep) = [] := by
  rw [← List.filterMap_map]
  exact filterMap_acceptCls_seg cid t d dep l

@[simp]
lemma filterMap_publishCls_seg (reg : String) (cid : Nat → String)
    (t : Nat → RouteTable) (d : String) (dep : List String) (l : List Nat) :
    (l.map (subnetSegRes cid t d dep)).filterMap (publishCls reg) = [] :=
  filterMap_map_none (publishCls reg) (subnetSegRes cid t d dep) l (fun _ => rfl)

@[simp]
lemma filterMap_comp_publishCls_seg (reg : String) (cid : Nat → String)
    (t : Nat → RouteTable) (d : String) (dep : List String) (l : List Nat) :
    l.filterMap (publishCls reg ∘ subnetSegRes cid t d dep) = [] := by
  rw [← List.filterMap_map]
  exact filterMap_publishCls_seg reg cid t d dep l

@[simp]
lemma filterMap_gatewayCls_seg (reg : String) (cid : Nat → String)
    (t : Nat → RouteTable) (d : String) (dep : List String) (l : List Nat) :
    (l.map (subnetSegRes cid t d dep)).filterMap (gatewayCls reg) = [] :=
  filterMap_map_none (gatewayCls reg) (subnetSegRes cid t d dep) l (fun _ => rfl)

@[simp]
lemma filterMap_comp_gatewayCls_seg (reg : String) (cid : Nat → String)
    (t : Nat → RouteTable) (d : String) (dep : List String) (l : List Nat) :
    l.filterMap (gatewayCls reg ∘ subnetSegRes cid t d dep) = [] := by
  rw [← List.filterMap_map]
  exact filterMap_gatewayCls_seg reg cid t d dep l

@[simp]
lemma filterMap_vpcAttachCls_seg (reg : String) (cid : Nat → String)
    (t : Nat → RouteTable) (d : String) (dep : List String) (l : List Nat) :
    (l.map (subnetSegRes cid t d dep)).filterMap (vpcAttachCls reg) = [] :=
  filterMap_map_none (vpcAttachCls reg) (subnetSegRes cid t d dep) l (fun _ => rfl)

@[simp]
lemma filterMap_comp_vpcAttachCls_seg (reg : String) (cid : Nat → String)
    (t : Nat → RouteTable) (d : String) (dep : List String) (l : List Nat) :
    l.filterMap (vpcAttachCls reg ∘ subnetSegRes cid t d dep) = [] := by
  rw [← List.filterMap_map]
  exact filterMap_vpcAttachCls_seg reg cid t d dep l

@[simp]
lemma filterMap_tgwRouteCls_seg (cid : Nat → String) (t : Nat → RouteTable)
    (d : String) (dep : List String) (l : List Nat) :
    (l.map (subnetSegRes cid t d dep)).filterMap tgwRouteCls = [] :=
  filterMap_map_none tgwRouteCls (subnetSegRes cid t d dep) l (fun _ => rfl)

@[simp]
lemma filterMap_comp_tgwRouteCls_seg (cid : Nat → String) (t : Nat → RouteTable)
    (d : String) (dep : List String) (l : List Nat) :
    l.filterMap (tgwRouteCls ∘ subnetSegRes cid t d dep) = [] := by
  rw [← List.filterMap_map]
  exact filterMap_tgwRouteCls_seg cid t d dep l

/-- The client stack's resource list, with its subnet-route loop displayed
through `subnetSegRes`. -/
lemma ClientRegion_resources (c : IClient) (ws : List IWorker)
    (n : String → Nat) :
    (ClientRegion c ws n).resources =
      [ ⟨"Scheduler VPC", .vpcNetwork c.cidr, []⟩,
        ⟨"TGW", .transitGateway, []⟩,
        ⟨"TGW Param", .publishParam ("tgw-param-" ++ c.region)
          (.tgwRef c.region), ["TGW"]⟩,
        ⟨"tgw-attachment", .vpcAttachment, ["TGW", "Scheduler VPC"]⟩ ]
      ++ ws.flatMap (fun w =>
          (List.range (n c.region)).map
            (subnetSegRes
              (fun i => "Subnet to TGW - " ++ toString i ++ " - " ++ w.region)
              (fun i => .subnetTable c.region i) w.cidr ["tgw-attachment"]))
      ++ [ ⟨"PrivateNP Param",
            .publishParam ("privatenp-hostedid-param-" ++ c.region)
              (.hostedZoneId c.region), []⟩,
           ⟨"OpenSearch HostName",
            .publishParam ("client-opensearch-domain-" ++ c.region)
              (.openSearchEndpoint c.region), []⟩,
           ⟨"OpenSearch ARN",
            .publishParam ("client-opensearch-arn-" ++ c.region)
              (.openSearchArnOf c.region), []⟩ ] := rfl

/-- The client stack's region. -/
lemma ClientRegion_region (c : IClient) (ws : List IWorker) (n : String → Nat) :
    (ClientRegion c ws n).region = c.region := rfl

/-- The worker stack's resource list, with its subnet-route loop displayed
through `subnetSegRes`. -/
lemma WorkerRegion_resources (c : IClient) (w : IWorker) (n : String → Nat) :
    (WorkerRegion c w n).resources =
      [ ⟨"TGW", .transitGateway, []⟩,
        ⟨"TGW Param - " ++ w.region,
         .publishParam ("tgw-param-" ++ w.region) (.tgwRef w.region), ["TGW"]⟩,
        ⟨"TGW Param", .readParam ("tgw-param-" ++ c.region) c.region, []⟩,
        ⟨"Peering Connection", .peeringAttachment c.region,
         ["TGW", "TGW Param"]⟩,
        ⟨"Accept Request",
         .acceptAttachment w.region c.region c.region, ["Peering Connection"]⟩,
        ⟨"Worker VPC", .vpcNetwork w.cidr, []⟩,
        ⟨"tgw-attachment", .vpcAttachment, ["TGW", "Worker VPC"]⟩,
        ⟨"TGW Attach Param",
         .publishParam ("tgw-attachmentid-" ++ w.region)
           (.attachmentIdOf w.region c.region), ["Peering Connection"]⟩ ]
      ++ (List.range (n w.region)).map
          (subnetSegRes (fun i => "Subnet to TGW - " ++ toString i)
            (fun i => .subnetTable w.region i) c.cidr ["Peering Connection"])
      ++ [ ⟨"PrivateNP Param",
            .readParam ("privatenp-hostedid-param-" ++ c.region) c.region, []⟩,
           ⟨"AssociateVPCWithHostedZone", .hostedZoneAssoc,
            ["PrivateNP Param", "Worker VPC"]⟩ ] := rfl

/-- The worker stack's region. -/
lemma WorkerRegion_region (c : IClient) (w : IWorker) (n : String → Nat) :
    (WorkerRegion c w n).region = w.region := rfl

/-- The worker-to-worker stack's resource list, with its subnet-route loop
displayed through `subnetSegRes`. -/
lemma WorkerToWorkerTGW_resources (name region : String) (peerWorker : IWorker)
    (vpcOwnerRegion : String) (nsub : String → Nat) (refDeps : List String) :
    (WorkerToWorkerTGW name region peerWorker vpcOwnerRegion nsub refDeps).resources =
      [ ⟨"TGW Param - " ++ peerWorker.region,
         .readParam ("tgw-param-" ++ peerWorker.region) peerWorker.region, []⟩,
        ⟨"TGW Param - " ++ region, .readParam ("tgw-param-" ++ region) region,
         []⟩,
        ⟨"Peering Connection", .peeringAttachment peerWorker.region,
         ["TGW Param - " ++ peerWorker.region, "TGW Param - " ++ region]⟩,
        ⟨"Peering ID - " ++ peerWorker.region,
         .publishParam
           ("tgw-attachmentid-" ++ region ++ "-" ++ peerWorker.region)
           (.attachmentIdOf region peerWorker.region), ["Peering Connection"]⟩,
        ⟨"Accept Request",
         .acceptAttachment region peerWorker.region peerWorker.region,
         ["Peering Connection"]⟩ ]
      ++ (List.range (nsub vpcOwnerRegion)).map
          (subnetSegRes (fun i => "Subnet to TGW - " ++ toString i)
            (fun i => .subnetTable vpcOwnerRegion i) peerWorker.cidr
            ["Peering Connection"]) := rfl

/-- The worker-to-worker stack's region. -/
lemma WorkerToWorkerTGW_region (name region : String) (peerWorker : IWorker)
    (vpcOwnerRegion : String) (nsub : String → Nat) (refDeps : List String) :
    (WorkerToWorkerTGW name region peerWorker vpcOwnerRegion nsub refDeps).region =
      region := rfl

/-- The inter-region route stack's resource list, with its subnet-route loop
displayed through `subnetSegRes`. -/
lemma InterRegionTransitGatewayRoute_resources (name region : String)
    (peerWorker : IWorker) (tgwOwnerRegion vpcOwnerRegion : String)
    (nsub : String → Nat) (dependsOn refDeps : List String) :
    (InterRegionTransitGatewayRoute name region peerWorker tgwOwnerRegion
        vpcOwnerRegion nsub dependsOn refDeps).resources =
      [ ⟨"Transit Gateway", .tgwRouteTableLookup tgwOwnerRegion, []⟩,
        ⟨"Transit Attachment ID - " ++ region,
         .readParam ("tgw-attachmentid-" ++ peerWorker.region ++ "-" ++ region)
           peerWorker.region, []⟩,
        ⟨"TGW Route",
         .tgwRoute (.gatewayTable tgwOwnerRegion) peerWorker.cidr
           (.fetched peerWorker.region
             ("tgw-attachmentid-" ++ peerWorker.region ++ "-" ++ region)),
         ["Transit Gateway", "Transit Attachment ID - " ++ region]⟩ ]
      ++ (List.range (nsub vpcOwnerRegion)).map
          (subnetSegRes (fun i => "Subnet to TGW - " ++ toString i)
            (fun i => .subnetTable vpcOwnerRegion i) peerWorker.cidr []) := rfl

/-- The inter-region route stack's region. -/
lemma InterRegionTransitGatewayRoute_region (name region : String)
    (peerWorker : IWorker) (tgwOwnerRegion vpcOwnerRegion : String)
    (nsub : String → Nat) (dependsOn refDeps : List String) :
    (InterRegionTransitGatewayRoute name region peerWorker tgwOwnerRegion
        vpcOwnerRegion nsub dependsOn refDeps).region = region := rfl

/-- The ordered pairs visited by the nested loop of
`bin/cross-region-dask-aws.ts` lines 75–77: each element paired with every
later element, exactly once. -/
def laterPairs {α : Type} : List α → List (α × α)
  | [] => []
  | a :: rest => rest.map (fun b => (a, b)) ++ laterPairs rest

/-- `laterPairs` visits `n * (n - 1) / 2` pairs (twice that, stated without
division). -/
lemma laterPairs_length_mul_two {α : Type} (l : List α) :
    (laterPairs l).length * 2 = l.length * (l.length - 1) := by
  induction l with
  | nil => rfl
  | cons a t ih =>
    simp only [laterPairs, List.length_append, List.length_map, List.length_cons]
    have e : (t.length + (laterPairs t).length) * 2 =
        t.length * 2 + (laterPairs t).length * 2 := by ring
    rw [e, ih]
    cases t.length with
    | zero => rfl
    | succ k =>
      simp only [Nat.add_sub_cancel, Nat.succ_sub_one]
      ring

/-- `laterPairs` visits `n * (n - 1) / 2` pairs. -/
lemma laterPairs_length {α : Type} (l : List α) :
    (laterPairs l).length = l.length * (l.length - 1) / 2 := by
  have h := laterPairs_length_mul_two l
  omega

/-- Both components of a visited pair are list members. -/
lemma mem_of_mem_laterPairs {α : Type} {l : List α} {p : α × α}
    (h : p ∈ laterPairs l) : p.1 ∈ l ∧ p.2 ∈ l := by
  induction l with
  | nil => cases h
  | cons a t ih =>
    simp only [laterPairs, List.mem_append, List.mem_map] at h
    rcases h with ⟨b, hb, rfl⟩ | h
    · exact ⟨List.mem_cons_self a t, List.mem_cons_of_mem a hb⟩
    · exact ⟨List.mem_cons_of_mem a (ih h).1, List.mem_cons_of_mem a (ih h).2⟩

/-- A pair is visited exactly when its components sit at increasing
positions. -/
lemma mem_laterPairs_iff {α : Type} {l : List α} {x y : α} :
    (x, y) ∈ laterPairs l ↔
      ∃ i j : Nat, i < j ∧ l[i]? = some x ∧ l[j]? = some y := by
  induction l with
  | nil =>
    simp only [laterPairs, List.not_mem_nil, false_iff]
    rintro ⟨i, j, _, h, _⟩
    simp at h
  | cons a t ih =>
    simp only [laterPairs, List.mem_append, List.mem_map, ih]
    constructor
    · rintro (⟨b, hb, he⟩ | ⟨i, j, hij, hx, hy⟩)
      · obtain ⟨rfl, rfl⟩ : a = x ∧ b = y := by
          simpa [Prod.ext_iff] using he
        obtain ⟨k, hk⟩ := List.mem_iff_getElem?.mp hb
        exact ⟨0, k + 1, Nat.succ_pos k, by simp, by simpa using hk⟩
      · exact ⟨i + 1, j + 1, by omega, by simpa using hx, by simpa using hy⟩
    · rintro ⟨i, j, hij, hx, hy⟩
      cases i with
      | zero =>
        simp only [List.getElem?_cons_zero, Option.some.injEq] at hx
        cases j with
        | zero => omega
        | succ k =>
          simp only [List.getElem?_cons_succ] at hy
          exact Or.inl ⟨y, List.mem_iff_getElem?.mpr ⟨k, hy⟩, by rw [hx]⟩
      | succ i2 =>
        cases j with
        | zero => omega
        | succ k =>
          simp only [List.getElem?_cons_succ] at hx hy
          exact Or.inr ⟨i2, k, by omega, hx, hy⟩

/-- The unordered-pair match predicate used to count links for a pair of
regions. -/
def pairMatch {α : Type} [DecidableEq α] (a b : α) (p : α × α) : Bool :=
  decide (p = (a, b) ∨ p = (b, a))

/-- `pairMatch` on a pair whose first component is `a`. -/
lemma pairMatch_fst_left {α : Type} [DecidableEq α] {a b : α} (hab : a ≠ b)
    (y : α) : pairMatch a b (a, y) = (y == b) := by
  by_cases h : y = b
  · simp [pairMatch, h]
  · simp [pairMatch, Prod.mk.injEq, hab, h]

/-- `pairMatch` on a pair whose first component is `b`. -/
lemma pairMatch_fst_right {α : Type} [DecidableEq α] {a b : α} (hab : a ≠ b)
    (y : α) : pairMatch a b (b, y) = (y == a) := by
  by_cases h : y = a
  · simp [pairMatch, h]
  · simp [pairMatch, Prod.mk.injEq, Ne.symm hab, h]

/-- `pairMatch` on a pair whose first component is neither endpoint. -/
lemma pairMatch_fst_none {α : Type} [DecidableEq α] {a b x : α} (hxa : x ≠ a)
    (hxb : x ≠ b) (y : α) : pairMatch a b (x, y) = false := by
  simp only [pairMatch, Prod.mk.injEq, decide_eq_false_iff_not]
  rintro (⟨h1, _⟩ | ⟨h1, _⟩)
  · exact hxa h1
  · exact hxb h1

/-- `pairMatch` on a pair whose second component is `a`. -/
lemma pairMatch_snd_left {α : Type} [DecidableEq α] {a b : α} (hab : a ≠ b)
    (y : α) : pairMatch a b (y, a) = (y == b) := by
  by_cases h : y = b
  · simp [pairMatch, h]
  · simp [pairMatch, Prod.mk.injEq, hab, Ne.symm hab, h]

/-- `pairMatch` on a pair whose second component is `b`. -/
lemma pairMatch_snd_right {α : Type} [DecidableEq α] {a b : α} (hab : a ≠ b)
    (y : α) : pairMatch a b (y, b) = (y == a) := by
  by_cases h : y = a
  · simp [pairMatch, h]
  · simp [pairMatch, Prod.mk.injEq, Ne.symm hab, h]

/-- `pairMatch` on a pair whose second component is neither endpoint. -/
lemma pairMatch_snd_none {α : Type} [DecidableEq α] {a b z : α} (hza : z ≠ a)
    (hzb : z ≠ b) (y : α) : pairMatch a b (y, z) = false := by
  simp only [pairMatch, Prod.mk.injEq, decide_eq_false_iff_not]
  rintro (⟨_, h2⟩ | ⟨_, h2⟩)
  · exact hzb h2
  · exact hza h2

/-- On a duplicate-free list, each unordered pair of distinct members is
visited exactly once. -/
lemma laterPairs_countP {α : Type} [DecidableEq α] {l : List α} (hl : l.Nodup)
    {a b : α} (ha : a ∈ l) (hb : b ∈ l) (hab : a ≠ b) :
    (laterPairs l).countP (pairMatch a b) = 1 := by
  induction l with
  | nil => cases ha
  | cons x t ih =>
    have hxt : x ∉ t := (List.nodup_cons.mp hl).1
    have ht : t.Nodup := (List.nodup_cons.mp hl).2
    simp only [laterPairs, List.countP_append, List.countP_map]
    have tail_zero : x = a ∨ x = b →
        (laterPairs t).countP (pairMatch a b) = 0 := by
      intro hx
      rw [List.countP_eq_zero]
      intro p hp
      have hm := mem_of_mem_laterPairs hp
      simp only [pairMatch, decide_eq_true_eq]
      rintro (rfl | rfl) <;>
        rcases hx with rfl | rfl <;>
          first
          | exact hxt hm.1
          | exact hxt hm.2
    rcases List.mem_cons.mp ha with rfl | hat
    · rcases List.mem_cons.mp hb with rfl | hbt
      · exact absurd rfl hab
      · have h1 : t.countP (pairMatch a b ∘ fun y => (a, y)) = 1 := by
          have he : ∀ y ∈ t, ((pairMatch a b ∘ fun y => (a, y)) y = true) ↔
              ((y == b) = true) := by
            intro y _
            rw [Function.comp_apply, pairMatch_fst_left hab]
          rw [List.countP_congr he]
          exact List.count_eq_one_of_mem ht hbt
        rw [h1, tail_zero (Or.inl rfl)]
    · rcases List.mem_cons.mp hb with rfl | hbt
      · have h1 : t.countP (pairMatch a b ∘ fun y => (b, y)) = 1 := by
          have he : ∀ y ∈ t, ((pairMatch a b ∘ fun y => (b, y)) y = true) ↔
              ((y == a) = true) := by
            intro y _
            rw [Function.comp_apply, pairMatch_fst_right hab]
          rw [List.countP_congr he]
          exact List.count_eq_one_of_mem ht hat
        rw [h1, tail_zero (Or.inr rfl)]
      · have h1 : t.countP (pairMatch a b ∘ fun y => (x, y)) = 0 := by
          rw [List.countP_eq_zero]
          intro y _
          have hxa : x ≠ a := fun h => hxt (h ▸ hat)
          have hxb : x ≠ b := fun h => hxt (h ▸ hbt)
          rw [Function.comp_apply, pairMatch_fst_none hxa hxb]
          exact Bool.false_ne_true
        rw [h1, ih ht hat hbt]

/-! ### Canonical shapes of the extractions, computed from `buildApp` -/

/-- Parameters published by the client stack, in creation order. -/
def clientParams (c : IClient) : List (String × String × ParamValue) :=
  [ (c.region, "tgw-param-" ++ c.region, .tgwRef c.region),
    (c.region, "privatenp-hostedid-param-" ++ c.region, .hostedZoneId c.region),
    (c.region, "client-opensearch-domain-" ++ c.region,
      .openSearchEndpoint c.region),
    (c.region, "client-opensearch-arn-" ++ c.region, .openSearchArnOf c.region) ]

/-- Parameters published by one worker bootstrap stack. -/
def workerParams (c : IClient) (w : IWorker) : List (String × String × ParamValue) :=
  [ (w.region, "tgw-param-" ++ w.region, .tgwRef w.region),
    (w.region, "tgw-attachmentid-" ++ w.region,
      .attachmentIdOf w.region c.region) ]

/-- The parameter published by the worker-to-worker stack of `(wx, wy)`. -/
def pairParam (wx wy : IWorker) : String × String × ParamValue :=
  (wx.region, "tgw-attachmentid-" ++ wx.region ++ "-" ++ wy.region,
    .attachmentIdOf wx.region wy.region)

/-- Parameters published by one `SyncLustreToOpenSearch` stack. -/
def syncParams (c : IClient) (wx : IWorker) : List (String × String × ParamValue) :=
  [ (wx.region, "client-region-for-dask-worker-" ++ wx.region,
      .regionName c.region),
    (wx.region, "worker-region-data-bucket-for-dask-worker-" ++ wx.region,
      .datasetBucket wx.dataset) ]

/-- Parameters published by the worker-to-worker wiring section. -/
def w2wParams (c : IClient) : List IWorker → List (String × String × ParamValue)
  | [] => []
  | wx :: rest => rest.map (pairParam wx) ++ syncParams c wx ++ w2wParams c rest

/-- Subnet-level routes added by the client stack. -/
def clientSubnetKeys (c : IClient) (ws : List IWorker) (n : Nat) :
    List (RouteTable × String) :=
  ws.flatMap (fun w =>
    (List.range n).map (fun i => (RouteTable.subnetTable c.region i, w.cidr)))

/-- Subnet-level routes added by one worker bootstrap stack. -/
def workerSubnetKeys (c : IClient) (w : IWorker) (n : Nat) :
    List (RouteTable × String) :=
  (List.range n).map (fun i => (RouteTable.subnetTable w.region i, c.cidr))

/-- Subnet-level routes added for one worker-to-worker pair (initiator side
then peer side). -/
def pairSubnetKeys (nsub : String → Nat) (wx wy : IWorker) :
    List (RouteTable × String) :=
  (List.range (nsub wx.region)).map
      (fun i => (RouteTable.subnetTable wx.region i, wy.cidr))
    ++ (List.range (nsub wy.region)).map
      (fun i => (RouteTable.subnetTable wy.region i, wx.cidr))

/-- Subnet-level routes added by the worker-to-worker wiring section. -/
def w2wSubnetKeys (nsub : String → Nat) : List IWorker → List (RouteTable × String)
  | [] => []
  | wx :: rest => rest.flatMap (pairSubnetKeys nsub wx) ++ w2wSubnetKeys nsub rest

/-- Gateway-level routes added for one client-worker link (worker side then
client side). -/
def workerGwEntries (c : IClient) (w : IWorker) :
    List (RouteTable × String × AttachmentRef) :=
  [ (RouteTable.gatewayTable w.region, c.cidr, .direct w.region c.region),
    (RouteTable.gatewayTable c.region, w.cidr,
      .fetched w.region ("tgw-attachmentid-" ++ w.region)) ]

/-- Gateway-level routes added for one worker-to-worker pair (initiator side
then peer side). -/
def pairGwEntries (wx wy : IWorker) :
    List (RouteTable × String × AttachmentRef) :=
  [ (RouteTable.gatewayTable wx.region, wy.cidr, .direct wx.region wy.region),
    (RouteTable.gatewayTable wy.region, wx.cidr,
      .fetched wx.region
        ("tgw-attachmentid-" ++ wx.region ++ "-" ++ wy.region)) ]

/-- Gateway-level routes added by the worker-to-worker wiring section. -/
def w2wGwEntries : List IWorker → List (RouteTable × String × AttachmentRef)
  | [] => []
  | wx :: rest => rest.flatMap (pairGwEntries wx) ++ w2wGwEntries rest

/-! ### Bridging lemmas: extractions of `buildApp` in canonical shape -/

/-- Peering attachments created per worker-pair triple. -/
lemma peerings_w2wTriple (nsub : String → Nat) (wx wy : IWorker) :
    (w2wTriple nsub wx wy).flatMap peeringsOf = [(wx.region, wy.region)] := by
  simp [w2wTriple, peeringsOf, peeringCls,
    WorkerToWorkerTGW_resources, WorkerToWorkerTGW_region,
    InterRegionTransitGatewayRoute_resources,
    InterRegionTransitGatewayRoute_region, WorkerRegionTransitGatewayRoute]

/-- Peering attachments of the worker-to-worker wiring. -/
lemma peerings_w2wSection (c : IClient) (nsub : String → Nat) :
    ∀ ws : List IWorker,
      peeringPairs (w2wSection c nsub ws) =
        laterPairs (ws.map (fun w => w.region)) := by
  intro ws
  induction ws with
  | nil => rfl
  | cons wx rest ih =>
    have ih2 : (w2wSection c nsub rest).flatMap peeringsOf =
        laterPairs (rest.map (fun w => w.region)) := ih
    simp only [w2wSection, peeringPairs, List.flatMap_append, List.flatMap_cons,
      List.flatMap_nil, ih2, laterPairs, List.map_cons]
    rw [List.flatMap_assoc]
    simp [peerings_w2wTriple, peeringsOf, peeringCls, SyncLustreToOpenSearch,
      flatMap_single]

/-- Peering attachments created per worker bootstrap triple. -/
lemma peerings_workerSection_one (c : IClient) (nsub : String → Nat)
    (w : IWorker) :
    (workerSection c nsub w).flatMap peeringsOf = [(w.region, c.region)] := by
  simp [workerSection, peeringsOf, peeringCls, WorkerRegion_resources,
    WorkerRegion_region, WorkerRegionTransitGatewayRoute,
    ClientToWorkerTransitGatewayRoute]

/-- The client stack creates no peering attachment. -/
lemma peeringsOf_ClientRegion (c : IClient) (ws : List IWorker)
    (n : String → Nat) : peeringsOf (ClientRegion c ws n) = [] := by
  simp [peeringsOf, peeringCls, ClientRegion_resources, ClientRegion_region,
    filterMap_flatMap]

/-- Canonical shape of all peering attachments: one per client-worker link,
then one per later-worker pair. -/
lemma peeringPairs_buildApp (c : IClient) (ws : List IWorker)
    (nsub : String → Nat) :
    peeringPairs (buildApp c ws nsub) =
      ws.map (fun w => (w.region, c.region))
        ++ laterPairs (ws.map (fun w => w.region)) := by
  have h2 : (w2wSection c nsub ws).flatMap peeringsOf =
      laterPairs (ws.map (fun w => w.region)) := peerings_w2wSection c nsub ws
  simp only [buildApp, peeringPairs, List.flatMap_append, List.flatMap_cons,
    List.flatMap_nil, h2, List.flatMap_assoc]
  simp [peerings_workerSection_one, peeringsOf_ClientRegion, flatMap_single]

/-- Accept calls created per worker-pair triple. -/
lemma accepts_w2wTriple (nsub : String → Nat) (wx wy : IWorker) :
    (w2wTriple nsub wx wy).flatMap acceptsOf =
      [(wx.region, wy.region, wy.region)] := by
  simp [w2wTriple, acceptsOf, acceptCls, WorkerToWorkerTGW_resources,
    InterRegionTransitGatewayRoute_resources, WorkerRegionTransitGatewayRoute]

/-- Accept calls of the worker-to-worker wiring. -/
lemma accepts_w2wSection (c : IClient) (nsub : String → Nat) :
    ∀ ws : List IWorker,
      acceptCalls (w2wSection c nsub ws) =
        (laterPairs (ws.map (fun w => w.region))).map
          (fun p => (p.1, p.2, p.2)) := by
  intro ws
  induction ws with
  | nil => rfl
  | cons wx rest ih =>
    have ih2 : (w2wSection c nsub rest).flatMap acceptsOf =
        (laterPairs (rest.map (fun w => w.region))).map
          (fun p => (p.1, p.2, p.2)) := ih
    simp only [w2wSection, acceptCalls, List.flatMap_append, List.flatMap_cons,
      List.flatMap_nil, ih2, laterPairs, List.map_cons, List.map_append]
    rw [List.flatMap_assoc]
    simp [accepts_w2wTriple, acceptsOf, acceptCls, SyncLustreToOpenSearch,
      flatMap_single, List.map_map, Function.comp_def]

/-- Accept calls created per worker bootstrap triple. -/
lemma accepts_workerSection_one (c : IClient) (nsub : String → Nat)
    (w : IWorker) :
    (workerSection c nsub w).flatMap acceptsOf =
      [(w.region, c.region, c.region)] := by
  simp [workerSection, acceptsOf, acceptCls, WorkerRegion_resources,
    WorkerRegionTransitGatewayRoute, ClientToWorkerTransitGatewayRoute]

/-- The client stack performs no accept call. -/
lemma acceptsOf_ClientRegion (c : IClient) (ws : List IWorker)
    (n : String → Nat) : acceptsOf (ClientRegion c ws n) = [] := by
  simp [acceptsOf, acceptCls, ClientRegion_resources, filterMap_flatMap]

/-- Canonical shape of all accept calls. -/
lemma acceptCalls_buildApp (c : IClient) (ws : List IWorker)
    (nsub : String → Nat) :
    acceptCalls (buildApp c ws nsub) =
      ws.map (fun w => (w.region, c.region, c.region))
        ++ (laterPairs (ws.map (fun w => w.region))).map
          (fun p => (p.1, p.2, p.2)) := by
  have h2 : (w2wSection c nsub ws).flatMap acceptsOf =
      (laterPairs (ws.map (fun w => w.region))).map (fun p => (p.1, p.2, p.2)) :=
    accepts_w2wSection c nsub ws
  simp only [buildApp, acceptCalls, List.flatMap_append, List.flatMap_cons,
    List.flatMap_nil, h2, List.flatMap_assoc]
  simp [accepts_workerSection_one, acceptsOf_ClientRegion, flatMap_single]

/-- Gateways created per worker-pair triple: none. -/
lemma gateways_w2wTriple (nsub : String → Nat) (wx wy : IWorker) :
    (w2wTriple nsub wx wy).flatMap gatewaysOf = [] := by
  simp [w2wTriple, gatewaysOf, gatewayCls, WorkerToWorkerTGW_resources,
    WorkerToWorkerTGW_region, InterRegionTransitGatewayRoute_resources,
    InterRegionTransitGatewayRoute_region, WorkerRegionTransitGatewayRoute]

/-- The worker-to-worker wiring creates no gateway. -/
lemma gateways_w2wSection (c : IClient) (nsub : String → Nat) :
    ∀ ws : List IWorker, gatewayRegions (w2wSection c nsub ws) = [] := by
  intro ws
  induction ws with
  | nil => rfl
  | cons wx rest ih =>
    have ih2 : (w2wSection c nsub rest).flatMap gatewaysOf = [] := ih
    simp only [w2wSection, gatewayRegions, List.flatMap_append,
      List.flatMap_cons, List.flatMap_nil, ih2]
    rw [List.flatMap_assoc]
    simp [gateways_w2wTriple, gatewaysOf, gatewayCls, SyncLustreToOpenSearch]

/-- Gateways created per worker bootstrap triple: exactly the worker's. -/
lemma gateways_workerSection_one (c : IClient) (nsub : String → Nat)
    (w : IWorker) :
    (workerSection c nsub w).flatMap gatewaysOf = [w.region] := by
  simp [workerSection, gatewaysOf, gatewayCls, WorkerRegion_resources,
    WorkerRegion_region, WorkerRegionTransitGatewayRoute,
    ClientToWorkerTransitGatewayRoute]

/-- Gateways created by the client stack: exactly the client's. -/
lemma gatewaysOf_ClientRegion (c : IClient) (ws : List IWorker)
    (n : String → Nat) : gatewaysOf (ClientRegion c ws n) = [c.region] := by
  simp [gatewaysOf, gatewayCls, ClientRegion_resources, ClientRegion_region,
    filterMap_flatMap]

/-- Canonical shape of all created gateways: one per participating region. -/
lemma gatewayRegions_buildApp (c : IClient) (ws : List IWorker)
    (nsub : String → Nat) :
    gatewayRegions (buildApp c ws nsub) =
      c.region :: ws.map (fun w => w.region) := by
  have h2 : (w2wSection c nsub ws).flatMap gatewaysOf = [] :=
    gateways_w2wSection c nsub ws
  simp only [buildApp, gatewayRegions, List.flatMap_append, List.flatMap_cons,
    List.flatMap_nil, h2, List.flatMap_assoc]
  simp [gateways_workerSection_one, gatewaysOf_ClientRegion, flatMap_single]

/-- VPC attachments created per worker-pair triple: none. -/
lemma vpcAttachments_w2wTriple (nsub : String → Nat) (wx wy : IWorker) :
    (w2wTriple nsub wx wy).flatMap vpcAttachmentsOf = [] := by
  simp [w2wTriple, vpcAttachmentsOf, vpcAttachCls, WorkerToWorkerTGW_resources,
    WorkerToWorkerTGW_region, InterRegionTransitGatewayRoute_resources,
    InterRegionTransitGatewayRoute_region, WorkerRegionTransitGatewayRoute]

/-- The worker-to-worker wiring attaches no VPC. -/
lemma vpcAttachments_w2wSection (c : IClient) (nsub : String → Nat) :
    ∀ ws : List IWorker, vpcAttachmentRegions (w2wSection c nsub ws) = [] := by
  intro ws
  induction ws with
  | nil => rfl
  | cons wx rest ih =>
    have ih2 : (w2wSection c nsub rest).flatMap vpcAttachmentsOf = [] := ih
    simp only [w2wSection, vpcAttachmentRegions, List.flatMap_append,
      List.flatMap_cons, List.flatMap_nil, ih2]
    rw [List.flatMap_assoc]
    simp [vpcAttachments_w2wTriple, vpcAttachmentsOf, vpcAttachCls,
      SyncLustreToOpenSearch]

/-- VPC attachments created per worker bootstrap triple. -/
lemma vpcAttachments_workerSection_one (c : IClient) (nsub : String → Nat)
    (w : IWorker) :
    (workerSection c nsub w).flatMap vpcAttachmentsOf = [w.region] := by
  simp [workerSection, vpcAttachmentsOf, vpcAttachCls, WorkerRegion_resources,
    WorkerRegion_region, WorkerRegionTransitGatewayRoute,
    ClientToWorkerTransitGatewayRoute]

/-- VPC attachments created by the client stack. -/
lemma vpcAttachmentsOf_ClientRegion (c : IClient) (ws : List IWorker)
    (n : String → Nat) :
    vpcAttachmentsOf (ClientRegion c ws n) = [c.region] := by
  simp [vpcAttachmentsOf, vpcAttachCls, ClientRegion_resources,
    ClientRegion_region, filterMap_flatMap]

/-- Canonical shape of all VPC-to-gateway attachments. -/
lemma vpcAttachmentRegions_buildApp (c : IClient) (ws : List IWorker)
    (nsub : String → Nat) :
    vpcAttachmentRegions (buildApp c ws nsub) =
      c.region :: ws.map (fun w => w.region) := by
  have h2 : (w2wSection c nsub ws).flatMap vpcAttachmentsOf = [] :=
    vpcAttachments_w2wSection c nsub ws
  simp only [buildApp, vpcAttachmentRegions, List.flatMap_append,
    List.flatMap_cons, List.flatMap_nil, h2, List.flatMap_assoc]
  simp [vpcAttachments_workerSection_one, vpcAttachmentsOf_ClientRegion,
    flatMap_single]

/-- Parameters published per worker-pair triple. -/
lemma publishes_w2wTriple (nsub : String → Nat) (wx wy : IWorker) :
    (w2wTriple nsub wx wy).flatMap publishesOf = [pairParam wx wy] := by
  simp [w2wTriple, publishesOf, publishCls, WorkerToWorkerTGW_resources,
    WorkerToWorkerTGW_region, InterRegionTransitGatewayRoute_resources,
    InterRegionTransitGatewayRoute_region, WorkerRegionTransitGatewayRoute,
    pairParam]

/-- Parameters published by the worker-to-worker wiring. -/
lemma publishes_w2wSection (c : IClient) (nsub : String → Nat) :
    ∀ ws : List IWorker,
      publishedParams (w2wSection c nsub ws) = w2wParams c ws := by
  intro ws
  induction ws with
  | nil => rfl
  | cons wx rest ih =>
    have ih2 : (w2wSection c nsub rest).flatMap publishesOf =
        w2wParams c rest := ih
    simp only [w2wSection, publishedParams, List.flatMap_append,
      List.flatMap_cons, List.flatMap_nil, ih2, w2wParams]
    rw [List.flatMap_assoc]
    simp [publishes_w2wTriple, publishesOf, publishCls, SyncLustreToOpenSearch,
      flatMap_single, syncParams]

/-- Parameters published per worker bootstrap triple. -/
lemma publishes_workerSection_one (c : IClient) (nsub : String → Nat)
    (w : IWorker) :
    (workerSection c nsub w).flatMap publishesOf = workerParams c w := by
  simp [workerSection, publishesOf, publishCls, WorkerRegion_resources,
    WorkerRegion_region, WorkerRegionTransitGatewayRoute,
    ClientToWorkerTransitGatewayRoute, workerParams]

/-- Parameters published by the client stack. -/
lemma publishesOf_ClientRegion (c : IClient) (ws : List IWorker)
    (n : String → Nat) : publishesOf (ClientRegion c ws n) = clientParams c := by
  simp [publishesOf, publishCls, ClientRegion_resources, ClientRegion_region,
    filterMap_flatMap, clientParams]

/-- Canonical shape of all published parameters. -/
lemma publishedParams_buildApp (c : IClient) (ws : List IWorker)
    (nsub : String → Nat) :
    publishedParams (buildApp c ws nsub) =
      clientParams c ++ ws.flatMap (workerParams c) ++ w2wParams c ws := by
  have h2 : (w2wSection c nsub ws).flatMap publishesOf = w2wParams c ws :=
    publishes_w2wSection c nsub ws
  simp only [buildApp, publishedParams, List.flatMap_append, List.flatMap_cons,
    List.flatMap_nil, h2, List.flatMap_assoc]
  simp [publishes_workerSection_one, publishesOf_ClientRegion]

/-- Subnet routes added per worker-pair triple. -/
lemma subnetRoutes_w2wTriple (nsub : String → Nat) (wx wy : IWorker) :
    (w2wTriple nsub wx wy).flatMap subnetRoutesOf = pairSubnetKeys nsub wx wy := by
  simp [w2wTriple, subnetRoutesOf, subnetCls, WorkerToWorkerTGW_resources,
    InterRegionTransitGatewayRoute_resources, WorkerRegionTransitGatewayRoute,
    pairSubnetKeys]

/-- Subnet routes added by the worker-to-worker wiring. -/
lemma subnetRoutes_w2wSection (c : IClient) (nsub : String → Nat) :
    ∀ ws : List IWorker,
      subnetRouteKeys (w2wSection c nsub ws) = w2wSubnetKeys nsub ws := by
  intro ws
  induction ws with
  | nil => rfl
  | cons wx rest ih =>
    have ih2 : (w2wSection c nsub rest).flatMap subnetRoutesOf =
        w2wSubnetKeys nsub rest := ih
    simp only [w2wSection, subnetRouteKeys, List.flatMap_append,
      List.flatMap_cons, List.flatMap_nil, ih2, w2wSubnetKeys]
    rw [List.flatMap_assoc]
    simp [subnetRoutes_w2wTriple, subnetRoutesOf, subnetCls,
      SyncLustreToOpenSearch]

/-- Subnet routes added per worker bootstrap triple. -/
lemma subnetRoutes_workerSection_one (c : IClient) (nsub : String → Nat)
    (w : IWorker) :
    (workerSection c nsub w).flatMap subnetRoutesOf =
      workerSubnetKeys c w (nsub w.region) := by
  simp [workerSection, subnetRoutesOf, subnetCls, WorkerRegion_resources,
    WorkerRegionTransitGatewayRoute, ClientToWorkerTransitGatewayRoute,
    workerSubnetKeys]

/-- Subnet routes added by the client stack. -/
lemma subnetRoutesOf_ClientRegion (c : IClient) (ws : List IWorker)
    (n : String → Nat) :
    subnetRoutesOf (ClientRegion c ws n) =
      clientSubnetKeys c ws (n c.region) := by
  simp [subnetRoutesOf, subnetCls, ClientRegion_resources, filterMap_flatMap,
    clientSubnetKeys]

/-- Canonical shape of all subnet-level route entries. -/
lemma subnetRouteKeys_buildApp (c : IClient) (ws : List IWorker)
    (nsub : String → Nat) :
    subnetRouteKeys (buildApp c ws nsub) =
      clientSubnetKeys c ws (nsub c.region)
        ++ ws.flatMap (fun w => workerSubnetKeys c w (nsub w.region))
        ++ w2wSubnetKeys nsub ws := by
  have h2 : (w2wSection c nsub ws).flatMap subnetRoutesOf =
      w2wSubnetKeys nsub ws := subnetRoutes_w2wSection c nsub ws
  simp only [buildApp, subnetRouteKeys, List.flatMap_append, List.flatMap_cons,
    List.flatMap_nil, h2, List.flatMap_assoc]
  simp [subnetRoutes_workerSection_one, subnetRoutesOf_ClientRegion]

/-- Gateway-level routes added per worker-pair triple. -/
lemma tgwRoutes_w2wTriple (nsub : String → Nat) (wx wy : IWorker) :
    (w2wTriple nsub wx wy).flatMap tgwRoutesOf = pairGwEntries wx wy := by
  simp [w2wTriple, tgwRoutesOf, tgwRouteCls, WorkerToWorkerTGW_resources,
    InterRegionTransitGatewayRoute_resources, WorkerRegionTransitGatewayRoute,
    pairGwEntries]

/-- Gateway-level routes added by the worker-to-worker wiring. -/
lemma tgwRoutes_w2wSection (c : IClient) (nsub : String → Nat) :
    ∀ ws : List IWorker,
      tgwRouteEntries (w2wSection c nsub ws) = w2wGwEntries ws := by
  intro ws
  induction ws with
  | nil => rfl
  | cons wx rest ih =>
    have ih2 : (w2wSection c nsub rest).flatMap tgwRoutesOf =
        w2wGwEntries rest := ih
    simp only [w2wSection, tgwRouteEntries, List.flatMap_append,
      List.flatMap_cons, List.flatMap_nil, ih2, w2wGwEntries]
    rw [List.flatMap_assoc]
    simp [tgwRoutes_w2wTriple, tgwRoutesOf, tgwRouteCls, SyncLustreToOpenSearch]

/-- Gateway-level routes added per worker bootstrap triple. -/
lemma tgwRoutes_workerSection_one (c : IClient) (nsub : String → Nat)
    (w : IWorker) :
    (workerSection c nsub w).flatMap tgwRoutesOf = workerGwEntries c w := by
  simp [workerSection, tgwRoutesOf, tgwRouteCls, WorkerRegion_resources,
    WorkerRegionTransitGatewayRoute, ClientToWorkerTransitGatewayRoute,
    workerGwEntries]

/-- The client stack adds no gateway-level route. -/
lemma tgwRoutesOf_ClientRegion (c : IClient) (ws : List IWorker)
    (n : String → Nat) : tgwRoutesOf (ClientRegion c ws n) = [] := by
  simp [tgwRoutesOf, tgwRouteCls, ClientRegion_resources, filterMap_flatMap]

/-- Canonical shape of all gateway-level route entries. -/
lemma tgwRouteEntries_buildApp (c : IClient) (ws : List IWorker)
    (nsub : String → Nat) :
    tgwRouteEntries (buildApp c ws nsub) =
      ws.flatMap (workerGwEntries c) ++ w2wGwEntries ws := by
  have h2 : (w2wSection c nsub ws).flatMap tgwRoutesOf = w2wGwEntries ws :=
    tgwRoutes_w2wSection c nsub ws
  simp only [buildApp, tgwRouteEntries, List.flatMap_append, List.flatMap_cons,
    List.flatMap_nil, h2, List.flatMap_assoc]
  simp [tgwRoutes_workerSection_one, tgwRoutesOf_ClientRegion]
/-! ### Uniqueness of route entries per (route table, destination) -/

/-- The (table, destination) keys of the gateway routes of one client-worker
link. -/
def workerGwKeys (c : IClient) (w : IWorker) : List (RouteTable × String) :=
  [ (RouteTable.gatewayTable w.region, c.cidr),
    (RouteTable.gatewayTable c.region, w.cidr) ]

/-- The (table, destination) keys of the gateway routes of one worker-worker
pair. -/
def pairGwKeys (wx wy : IWorker) : List (RouteTable × String) :=
  [ (RouteTable.gatewayTable wx.region, wy.cidr),
    (RouteTable.gatewayTable wy.region, wx.cidr) ]

/-- The (table, destination) keys of the gateway routes of the
worker-to-worker wiring. -/
def w2wGwKeys : List IWorker → List (RouteTable × String)
  | [] => []
  | wx :: rest => rest.flatMap (pairGwKeys wx) ++ w2wGwKeys rest

/-- Keying the worker-link gateway entries forgets only the attachment. -/
lemma map_key_workerGwEntries (c : IClient) (w : IWorker) :
    (workerGwEntries c w).map (fun e => (e.1, e.2.1)) = workerGwKeys c w := rfl

/-- Keying the pair gateway entries forgets only the attachment. -/
lemma map_key_pairGwEntries (wx wy : IWorker) :
    (pairGwEntries wx wy).map (fun e => (e.1, e.2.1)) = pairGwKeys wx wy := rfl

/-- Keying the worker-to-worker gateway entries forgets only the
attachments. -/
lemma map_key_w2wGwEntries :
    ∀ l : List IWorker,
      (w2wGwEntries l).map (fun e => (e.1, e.2.1)) = w2wGwKeys l := by
  intro l
  induction l with
  | nil => rfl
  | cons wx rest ih =>
    simp only [w2wGwEntries, w2wGwKeys, List.map_append, ih,
      List.map_flatMap]
    simp [map_key_pairGwEntries]

/-- Shape of a client-stack subnet key. -/
lemma mem_clientSubnetKeys {c : IClient} {ws : List IWorker} {n : Nat}
    {k : RouteTable × String} (h : k ∈ clientSubnetKeys c ws n) :
    ∃ w ∈ ws, ∃ i : Nat, k = (RouteTable.subnetTable c.region i, w.cidr) := by
  simp only [clientSubnetKeys, List.mem_flatMap, List.mem_map,
    List.mem_range] at h
  obtain ⟨w, hw, i, _, rfl⟩ := h
  exact ⟨w, hw, i, rfl⟩

/-- Shape of a worker-stack subnet key. -/
lemma mem_workerSubnetFlat {c : IClient} {ws : List IWorker}
    {nsub : String → Nat} {k : RouteTable × String}
    (h : k ∈ ws.flatMap fun w => workerSubnetKeys c w (nsub w.region)) :
    ∃ w ∈ ws, ∃ i : Nat, k = (RouteTable.subnetTable w.region i, c.cidr) := by
  simp only [workerSubnetKeys, List.mem_flatMap, List.mem_map,
    List.mem_range] at h
  obtain ⟨w, hw, i, _, rfl⟩ := h
  exact ⟨w, hw, i, rfl⟩

/-- Shape of a pair subnet key. -/
lemma mem_pairSubnetKeys {nsub : String → Nat} {wx wy : IWorker}
    {k : RouteTable × String} (h : k ∈ pairSubnetKeys nsub wx wy) :
    (∃ i : Nat, k = (RouteTable.subnetTable wx.region i, wy.cidr)) ∨
      (∃ i : Nat, k = (RouteTable.subnetTable wy.region i, wx.cidr)) := by
  simp only [pairSubnetKeys, List.mem_append, List.mem_map,
    List.mem_range] at h
  rcases h with ⟨i, _, rfl⟩ | ⟨i, _, rfl⟩
  · exact Or.inl ⟨i, rfl⟩
  · exact Or.inr ⟨i, rfl⟩

/-- Profile of a worker-to-worker subnet key: its table belongs to a listed
worker and its destination is a listed worker's CIDR. -/
lemma mem_w2wSubnetKeys {nsub : String → Nat} :
    ∀ {l : List IWorker} {k : RouteTable × String},
      k ∈ w2wSubnetKeys nsub l →
      (∃ x ∈ l, ∃ i : Nat, k.1 = RouteTable.subnetTable x.region i) ∧
        ∃ y ∈ l, k.2 = y.cidr := by
  intro l
  induction l with
  | nil => intro k h; cases h
  | cons wx rest ih =>
    intro k h
    rcases List.mem_append.mp h with h | h
    · obtain ⟨wy, hwy, hk⟩ := List.mem_flatMap.mp h
      rcases mem_pairSubnetKeys hk with ⟨i, rfl⟩ | ⟨i, rfl⟩
      · exact ⟨⟨wx, List.mem_cons_self _ _, i, rfl⟩,
          wy, List.mem_cons_of_mem _ hwy, rfl⟩
      · exact ⟨⟨wy, List.mem_cons_of_mem _ hwy, i, rfl⟩,
          wx, List.mem_cons_self _ _, rfl⟩
    · obtain ⟨⟨x, hx, i, hk1⟩, y, hy, hk2⟩ := ih h
      exact ⟨⟨x, List.mem_cons_of_mem _ hx, i, hk1⟩,
        y, List.mem_cons_of_mem _ hy, hk2⟩

/-- Shape of a pair gateway key. -/
lemma mem_pairGwKeys {wx wy : IWorker} {k : RouteTable × String}
    (h : k ∈ pairGwKeys wx wy) :
    k = (RouteTable.gatewayTable wx.region, wy.cidr) ∨
      k = (RouteTable.gatewayTable wy.region, wx.cidr) := by
  simpa [pairGwKeys] using h

/-- Profile of a worker-to-worker gateway key. -/
lemma mem_w2wGwKeys :
    ∀ {l : List IWorker} {k : RouteTable × String}, k ∈ w2wGwKeys l →
      (∃ x ∈ l, k.1 = RouteTable.gatewayTable x.region) ∧
        ∃ y ∈ l, k.2 = y.cidr := by
  intro l
  induction l with
  | nil => intro k h; cases h
  | cons wx rest ih =>
    intro k h
    rcases List.mem_append.mp h with h | h
    · obtain ⟨wy, hwy, hk⟩ := List.mem_flatMap.mp h
      rcases mem_pairGwKeys hk with rfl | rfl
      · exact ⟨⟨wx, List.mem_cons_self _ _, rfl⟩,
          wy, List.mem_cons_of_mem _ hwy, rfl⟩
      · exact ⟨⟨wy, List.mem_cons_of_mem _ hwy, rfl⟩,
          wx, List.mem_cons_self _ _, rfl⟩
    · obtain ⟨⟨x, hx, hk1⟩, y, hy, hk2⟩ := ih h
      exact ⟨⟨x, List.mem_cons_of_mem _ hx, hk1⟩,
        y, List.mem_cons_of_mem _ hy, hk2⟩

/-- The per-subnet key map is injective in the subnet index. -/
lemma subKey_inj (r d : String) :
    Function.Injective
      (fun i => ((RouteTable.subnetTable r i, d) : RouteTable × String)) := by
  intro i j h
  simpa using h

/-- The client-stack subnet keys are duplicate-free when worker CIDRs are. -/
lemma clientSubnetKeys_nodup {c : IClient} {ws : List IWorker} {n : Nat}
    (hcids : (ws.map (fun w => w.cidr)).Nodup) :
    (clientSubnetKeys c ws n).Nodup := by
  rw [clientSubnetKeys, List.nodup_flatMap]
  constructor
  · intro w _
    exact (List.nodup_range n).map (subKey_inj c.region w.cidr)
  · rw [List.Nodup, List.pairwise_map] at hcids
    refine hcids.imp ?_
    intro w1 w2 hne k hk1 hk2
    obtain ⟨i, _, rfl⟩ := List.mem_map.mp hk1
    obtain ⟨j, _, he⟩ := List.mem_map.mp hk2
    simp only [Prod.mk.injEq, RouteTable.subnetTable.injEq] at he
    exact hne he.2.symm

/-- The worker-stack subnet keys are duplicate-free when worker regions
are. -/
lemma workerSubnetFlat_nodup {c : IClient} {ws : List IWorker}
    {nsub : String → Nat}
    (hregs : (ws.map (fun w => w.region)).Nodup) :
    (ws.flatMap fun w => workerSubnetKeys c w (nsub w.region)).Nodup := by
  rw [List.nodup_flatMap]
  constructor
  · intro w _
    exact (List.nodup_range _).map (subKey_inj w.region c.cidr)
  · rw [List.Nodup, List.pairwise_map] at hregs
    refine hregs.imp ?_
    intro w1 w2 hne k hk1 hk2
    simp only [workerSubnetKeys] at hk1 hk2
    obtain ⟨i, _, rfl⟩ := List.mem_map.mp hk1
    obtain ⟨j, _, he⟩ := List.mem_map.mp hk2
    simp only [Prod.mk.injEq, RouteTable.subnetTable.injEq] at he
    exact hne he.1.1.symm

/-- The subnet keys of one pair are duplicate-free when the two regions
differ. -/
lemma pairSubnetKeys_nodup {nsub : String → Nat} {wx wy : IWorker}
    (hxy : wx.region ≠ wy.region) : (pairSubnetKeys nsub wx wy).Nodup := by
  rw [pairSubnetKeys, List.nodup_append]
  refine ⟨(List.nodup_range _).map (subKey_inj wx.region wy.cidr),
    (List.nodup_range _).map (subKey_inj wy.region wx.cidr), ?_⟩
  intro k hk1 hk2
  obtain ⟨i, _, rfl⟩ := List.mem_map.mp hk1
  obtain ⟨j, _, he⟩ := List.mem_map.mp hk2
  simp only [Prod.mk.injEq, RouteTable.subnetTable.injEq] at he
  exact hxy he.1.1.symm

/-- The worker-to-worker subnet keys are duplicate-free when worker regions
and worker CIDRs are. -/
lemma w2wSubnetKeys_nodup {nsub : String → Nat} :
    ∀ {l : List IWorker}, (l.map (fun w => w.region)).Nodup →
      (l.map (fun w => w.cidr)).Nodup → (w2wSubnetKeys nsub l).Nodup := by
  intro l
  induction l with
  | nil => intro _ _; exact List.nodup_nil
  | cons wx rest ih =>
    intro hregs hcids
    have hxr : wx.region ∉ rest.map (fun w => w.region) :=
      (List.nodup_cons.mp hregs).1
    have hregs2 : (rest.map (fun w => w.region)).Nodup :=
      (List.nodup_cons.mp hregs).2
    have hxc : wx.cidr ∉ rest.map (fun w => w.cidr) :=
      (List.nodup_cons.mp hcids).1
    have hcids2 : (rest.map (fun w => w.cidr)).Nodup :=
      (List.nodup_cons.mp hcids).2
    rw [w2wSubnetKeys, List.nodup_append]
    refine ⟨?_, ih hregs2 hcids2, ?_⟩
    · rw [List.nodup_flatMap]
      constructor
      · intro wy hwy
        exact pairSubnetKeys_nodup
          (fun h => hxr (h ▸ List.mem_map.mpr ⟨wy, hwy, rfl⟩))
      · have hP : rest.Pairwise
            (fun y1 y2 => y1.region ≠ y2.region ∧ y1.cidr ≠ y2.cidr) := by
          rw [List.Nodup, List.pairwise_map] at hregs2 hcids2
          exact hregs2.and hcids2
        refine hP.imp_of_mem ?_
        intro y1 y2 hy1 hy2 ⟨hr12, hc12⟩ k hk1 hk2
        have hxy1 : wx.region ≠ y1.region :=
          fun h => hxr (h ▸ List.mem_map.mpr ⟨y1, hy1, rfl⟩)
        have hxy2 : wx.region ≠ y2.region :=
          fun h => hxr (h ▸ List.mem_map.mpr ⟨y2, hy2, rfl⟩)
        rcases mem_pairSubnetKeys hk1 with ⟨i, rfl⟩ | ⟨i, rfl⟩ <;>
          rcases mem_pairSubnetKeys hk2 with ⟨j, he⟩ | ⟨j, he⟩ <;>
            simp only [Prod.mk.injEq, RouteTable.subnetTable.injEq] at he
        · exact hc12 he.2
        · exact hxy2 he.1.1
        · exact hxy1 he.1.1.symm
        · exact hr12 he.1.1
    · intro k hk1 hk2
      obtain ⟨wy, hwy, hpk⟩ := List.mem_flatMap.mp hk1
      obtain ⟨⟨x, hx, i2, hk21⟩, y, hy, hk22⟩ := mem_w2wSubnetKeys hk2
      rcases mem_pairSubnetKeys hpk with ⟨i, rfl⟩ | ⟨i, rfl⟩
      · have h21 : RouteTable.subnetTable wx.region i =
            RouteTable.subnetTable x.region i2 := hk21
        simp only [RouteTable.subnetTable.injEq] at h21
        exact hxr (h21.1 ▸ List.mem_map.mpr ⟨x, hx, rfl⟩)
      · have h22 : wx.cidr = y.cidr := hk22
        exact hxc (h22 ▸ List.mem_map.mpr ⟨y, hy, rfl⟩)

/-- The worker-link gateway keys are duplicate-free when regions and CIDRs
(including the client's) are. -/
lemma workerGwFlat_nodup {c : IClient} {ws : List IWorker}
    (hreg : (c.region :: ws.map (fun w => w.region)).Nodup)
    (hcid : (c.cidr :: ws.map (fun w => w.cidr)).Nodup) :
    (ws.flatMap (workerGwKeys c)).Nodup := by
  have hcr : c.region ∉ ws.map (fun w => w.region) := (List.nodup_cons.mp hreg).1
  have hregs : (ws.map (fun w => w.region)).Nodup := (List.nodup_cons.mp hreg).2
  have hcids : (ws.map (fun w => w.cidr)).Nodup := (List.nodup_cons.mp hcid).2
  rw [List.nodup_flatMap]
  constructor
  · intro w hw
    have : w.region ≠ c.region :=
      fun h => hcr (h ▸ List.mem_map.mpr ⟨w, hw, rfl⟩)
    simp [workerGwKeys, this]
  · have hP : ws.Pairwise
        (fun w1 w2 => w1.region ≠ w2.region ∧ w1.cidr ≠ w2.cidr) := by
      rw [List.Nodup, List.pairwise_map] at hregs hcids
      exact hregs.and hcids
    refine hP.imp_of_mem ?_
    intro w1 w2 hw1 hw2 ⟨hr12, hc12⟩ k hk1 hk2
    have h1 : k = (RouteTable.gatewayTable w1.region, c.cidr) ∨
        k = (RouteTable.gatewayTable c.region, w1.cidr) := by
      simpa [workerGwKeys] using hk1
    have h2 : k = (RouteTable.gatewayTable w2.region, c.cidr) ∨
        k = (RouteTable.gatewayTable c.region, w2.cidr) := by
      simpa [workerGwKeys] using hk2
    have hcw1 : c.region ≠ w1.region :=
      fun h => hcr (h ▸ List.mem_map.mpr ⟨w1, hw1, rfl⟩)
    have hcw2 : c.region ≠ w2.region :=
      fun h => hcr (h ▸ List.mem_map.mpr ⟨w2, hw2, rfl⟩)
    rcases h1 with rfl | rfl <;> rcases h2 with he | he <;>
      simp only [Prod.mk.injEq, RouteTable.gatewayTable.injEq] at he
    · exact hr12 he.1
    · exact hcw1 he.1.symm
    · exact hcw2 he.1
    · exact hc12 he.2

/-- The pair gateway keys are duplicate-free when the two regions differ. -/
lemma pairGwKeys_nodup {wx wy : IWorker} (hxy : wx.region ≠ wy.region) :
    (pairGwKeys wx wy).Nodup := by
  simp [pairGwKeys, hxy]

/-- The worker-to-worker gateway keys are duplicate-free when worker regions
and CIDRs are. -/
lemma w2wGwKeys_nodup :
    ∀ {l : List IWorker}, (l.map (fun w => w.region)).Nodup →
      (l.map (fun w => w.cidr)).Nodup → (w2wGwKeys l).Nodup := by
  intro l
  induction l with
  | nil => intro _ _; exact List.nodup_nil
  | cons wx rest ih =>
    intro hregs hcids
    have hxr : wx.region ∉ rest.map (fun w => w.region) :=
      (List.nodup_cons.mp hregs).1
    have hregs2 : (rest.map (fun w => w.region)).Nodup :=
      (List.nodup_cons.mp hregs).2
    have hxc : wx.cidr ∉ rest.map (fun w => w.cidr) :=
      (List.nodup_cons.mp hcids).1
    have hcids2 : (rest.map (fun w => w.cidr)).Nodup :=
      (List.nodup_cons.mp hcids).2
    rw [w2wGwKeys, List.nodup_append]
    refine ⟨?_, ih hregs2 hcids2, ?_⟩
    · rw [List.nodup_flatMap]
      constructor
      · intro wy hwy
        exact pairGwKeys_nodup
          (fun h => hxr (h ▸ List.mem_map.mpr ⟨wy, hwy, rfl⟩))
      · have hP : rest.Pairwise
            (fun y1 y2 => y1.region ≠ y2.region ∧ y1.cidr ≠ y2.cidr) := by
          rw [List.Nodup, List.pairwise_map] at hregs2 hcids2
          exact hregs2.and hcids2
        refine hP.imp_of_mem ?_
        intro y1 y2 hy1 hy2 ⟨hr12, hc12⟩ k hk1 hk2
        have hxy1 : wx.region ≠ y1.region :=
          fun h => hxr (h ▸ List.mem_map.mpr ⟨y1, hy1, rfl⟩)
        have hxy2 : wx.region ≠ y2.region :=
          fun h => hxr (h ▸ List.mem_map.mpr ⟨y2, hy2, rfl⟩)
        rcases mem_pairGwKeys hk1 with rfl | rfl <;>
          rcases mem_pairGwKeys hk2 with he | he <;>
            simp only [Prod.mk.injEq, RouteTable.gatewayTable.injEq] at he
        · exact hc12 he.2
        · exact hxy2 he.1
        · exact hxy1 he.1.symm
        · exact hr12 he.1
    · intro k hk1 hk2
      obtain ⟨wy, hwy, hpk⟩ := List.mem_flatMap.mp hk1
      obtain ⟨⟨x, hx, hk21⟩, y, hy, hk22⟩ := mem_w2wGwKeys hk2
      rcases mem_pairGwKeys hpk with rfl | rfl
      · have h21 : RouteTable.gatewayTable wx.region =
            RouteTable.gatewayTable x.region := hk21
        simp only [RouteTable.gatewayTable.injEq] at h21
        exact hxr (h21 ▸ List.mem_map.mpr ⟨x, hx, rfl⟩)
      · have h22 : wx.cidr = y.cidr := hk22
        exact hxc (h22 ▸ List.mem_map.mpr ⟨y, hy, rfl⟩)

/-- Shape of a worker-link gateway key. -/
lemma mem_workerGwFlat {c : IClient} {ws : List IWorker}
    {k : RouteTable × String} (h : k ∈ ws.flatMap (workerGwKeys c)) :
    ∃ w ∈ ws, k = (RouteTable.gatewayTable w.region, c.cidr) ∨
      k = (RouteTable.gatewayTable c.region, w.cidr) := by
  obtain ⟨w, hw, hk⟩ := List.mem_flatMap.mp h
  exact ⟨w, hw, by simpa [workerGwKeys] using hk⟩

/-- Every subnet-level key names a subnet route table. -/
lemma subnet_keys_shape {c : IClient} {ws : List IWorker} {nsub : String → Nat}
    {k : RouteTable × String}
    (h : k ∈ (clientSubnetKeys c ws (nsub c.region)
      ++ ws.flatMap (fun w => workerSubnetKeys c w (nsub w.region)))
      ++ w2wSubnetKeys nsub ws) :
    ∃ r : String, ∃ i : Nat, k.1 = RouteTable.subnetTable r i := by
  rcases List.mem_append.mp h with h | h
  · rcases List.mem_append.mp h with h | h
    · obtain ⟨w, _, i, rfl⟩ := mem_clientSubnetKeys h
      exact ⟨c.region, i, rfl⟩
    · obtain ⟨w, _, i, rfl⟩ := mem_workerSubnetFlat h
      exact ⟨w.region, i, rfl⟩
  · obtain ⟨⟨x, _, i, hk⟩, _⟩ := mem_w2wSubnetKeys h
    exact ⟨x.region, i, hk⟩

/-- Every gateway-level key names a gateway route table. -/
lemma gw_keys_shape {c : IClient} {ws : List IWorker}
    {k : RouteTable × String}
    (h : k ∈ ws.flatMap (workerGwKeys c) ++ w2wGwKeys ws) :
    ∃ r : String, k.1 = RouteTable.gatewayTable r := by
  rcases List.mem_append.mp h with h | h
  · obtain ⟨w, _, hk | hk⟩ := mem_workerGwFlat h
    · exact ⟨w.region, by rw [hk]⟩
    · exact ⟨c.region, by rw [hk]⟩
  · obtain ⟨⟨x, _, hk⟩, _⟩ := mem_w2wGwKeys h
    exact ⟨x.region, hk⟩

/-! ### String-key reasoning for the parameter exchange -/

/-- String append is left-cancellative. -/
lemma str_append_left_cancel {p r s : String} (h : p ++ r = p ++ s) : r = s := by
  have hd := congrArg String.data h
  simp only [String.data_append] at hd
  exact String.ext (List.append_cancel_left hd)

/-- Two appends with literal prefixes differing at a position are unequal. -/
lemma str_ne_of_mismatch {p1 p2 : String} (s1 s2 : String) (n : Nat)
    (c1 c2 : Char) (h1 : p1.data[n]? = some c1) (h2 : p2.data[n]? = some c2)
    (hne : c1 ≠ c2) : p1 ++ s1 ≠ p2 ++ s2 := by
  intro he
  have hd := congrArg String.data he
  simp only [String.data_append] at hd
  have hn1 : n < p1.data.length := (List.getElem?_eq_some.mp h1).1
  have hn2 : n < p2.data.length := (List.getElem?_eq_some.mp h2).1
  have e1 : (p1.data ++ s1.data)[n]? = some c1 := by
    rw [List.getElem?_append_left hn1]
    exact h1
  have e2 : (p2.data ++ s2.data)[n]? = some c2 := by
    rw [List.getElem?_append_left hn2]
    exact h2
  rw [hd] at e1
  rw [e1] at e2
  exact hne (Option.some.inj e2)

/-- Strings of different lengths are unequal. -/
lemma str_len_ne {a b : String} (h : a.length ≠ b.length) : a ≠ b :=
  fun he => h (by rw [he])

/-- A string never equals itself extended by a nonempty middle part. -/
lemma str_ne_append_append (s t u : String) (ht : t.length ≠ 0) :
    s ≠ (s ++ t) ++ u := by
  refine str_len_ne ?_
  simp only [String.length_append]
  omega

/-- The (owning region, key) pairs of the client stack's parameters. -/
def clientRK (c : IClient) : List (String × String) :=
  [ (c.region, "tgw-param-" ++ c.region),
    (c.region, "privatenp-hostedid-param-" ++ c.region),
    (c.region, "client-opensearch-domain-" ++ c.region),
    (c.region, "client-opensearch-arn-" ++ c.region) ]

/-- The (owning region, key) pairs of one worker stack's parameters. -/
def workerRK (w : IWorker) : List (String × String) :=
  [ (w.region, "tgw-param-" ++ w.region),
    (w.region, "tgw-attachmentid-" ++ w.region) ]

/-- The (owning region, key) pair of one worker-pair parameter. -/
def pairRK (wx wy : IWorker) : String × String :=
  (wx.region, "tgw-attachmentid-" ++ wx.region ++ "-" ++ wy.region)

/-- The (owning region, key) pairs of one sync stack's parameters. -/
def syncRK (wx : IWorker) : List (String × String) :=
  [ (wx.region, "client-region-for-dask-worker-" ++ wx.region),
    (wx.region, "worker-region-data-bucket-for-dask-worker-" ++ wx.region) ]

/-- The (owning region, key) pairs of the worker-to-worker wiring. -/
def w2wRK : List IWorker → List (String × String)
  | [] => []
  | wx :: rest => rest.map (pairRK wx) ++ syncRK wx ++ w2wRK rest

/-- Keying the worker-to-worker parameters. -/
lemma map_rk_w2wParams (c : IClient) :
    ∀ l : List IWorker,
      (w2wParams c l).map (fun e => (e.1, e.2.1)) = w2wRK l := by
  intro l
  induction l with
  | nil => rfl
  | cons wx rest ih =>
    simp only [w2wParams, w2wRK, List.map_append, ih, List.map_map]
    rfl

/-- Canonical shape of the (owning region, key) pairs of all published
parameters. -/
lemma paramRegionKeys_buildApp (c : IClient) (ws : List IWorker)
    (nsub : String → Nat) :
    paramRegionKeys (buildApp c ws nsub) =
      clientRK c ++ ws.flatMap workerRK ++ w2wRK ws := by
  rw [paramRegionKeys, publishedParams_buildApp, List.map_append,
    List.map_append, List.map_flatMap, map_rk_w2wParams]
  rfl

/-- Profile of a worker-to-worker (region, key) pair: owned by a listed
worker, with one of the three key shapes. -/
lemma mem_w2wRK :
    ∀ {l : List IWorker} {k : String × String}, k ∈ w2wRK l →
      ∃ x ∈ l, k.1 = x.region ∧
        ((∃ y ∈ l, k.2 = "tgw-attachmentid-" ++ x.region ++ "-" ++ y.region) ∨
          k.2 = "client-region-for-dask-worker-" ++ x.region ∨
          k.2 = "worker-region-data-bucket-for-dask-worker-" ++ x.region) := by
  intro l
  induction l with
  | nil => intro k h; cases h
  | cons wx rest ih =>
    intro k h
    rcases List.mem_append.mp h with h | h
    · rcases List.mem_append.mp h with h | h
      · obtain ⟨wy, hwy, rfl⟩ := List.mem_map.mp h
        exact ⟨wx, List.mem_cons_self _ _, rfl,
          Or.inl ⟨wy, List.mem_cons_of_mem _ hwy, rfl⟩⟩
      · rcases List.mem_cons.mp h with rfl | h
        · exact ⟨wx, List.mem_cons_self _ _, rfl, Or.inr (Or.inl rfl)⟩
        · rw [List.mem_singleton] at h
          subst h
          exact ⟨wx, List.mem_cons_self _ _, rfl, Or.inr (Or.inr rfl)⟩
    · obtain ⟨x, hx, hk1, hsh⟩ := ih h
      refine ⟨x, List.mem_cons_of_mem _ hx, hk1, ?_⟩
      rcases hsh with ⟨y, hy, hk2⟩ | hk2 | hk2
      · exact Or.inl ⟨y, List.mem_cons_of_mem _ hy, hk2⟩
      · exact Or.inr (Or.inl hk2)
      · exact Or.inr (Or.inr hk2)

/-- Reassociation of a worker-pair key. -/
lemma pairKey_assoc (x y : String) :
    "tgw-attachmentid-" ++ x ++ "-" ++ y =
      "tgw-attachmentid-" ++ (x ++ ("-" ++ y)) := by
  rw [String.append_assoc, String.append_assoc]

/-- Owner and key shapes of a worker-stack parameter. -/
lemma mem_workerRK {w : IWorker} {k : String × String} (h : k ∈ workerRK w) :
    k.1 = w.region ∧ (k.2 = "tgw-param-" ++ w.region ∨
      k.2 = "tgw-attachmentid-" ++ w.region) := by
  rcases List.mem_cons.mp h with rfl | h
  · exact ⟨rfl, Or.inl rfl⟩
  · rw [List.mem_singleton] at h
    subst h
    exact ⟨rfl, Or.inr rfl⟩

/-- Every client-stack parameter is owned by the client region. -/
lemma mem_clientRK {c : IClient} {k : String × String} (h : k ∈ clientRK c) :
    k.1 = c.region := by
  rcases List.mem_cons.mp h with rfl | h
  · rfl
  rcases List.mem_cons.mp h with rfl | h
  · rfl
  rcases List.mem_cons.mp h with rfl | h
  · rfl
  rw [List.mem_singleton] at h
  subst h
  rfl

/-- The client stack's four parameter keys are pairwise distinct. -/
lemma clientRK_nodup (c : IClient) : (clientRK c).Nodup := by
  refine List.nodup_cons.mpr ⟨?_, List.nodup_cons.mpr ⟨?_,
    List.nodup_cons.mpr ⟨?_, List.nodup_singleton _⟩⟩⟩
  · intro h
    rcases List.mem_cons.mp h with he | h
    · exact str_ne_of_mismatch _ _ 0 't' 'p' (by decide) (by decide)
        (by decide) (congrArg Prod.snd he)
    rcases List.mem_cons.mp h with he | h
    · exact str_ne_of_mismatch _ _ 0 't' 'c' (by decide) (by decide)
        (by decide) (congrArg Prod.snd he)
    rw [List.mem_singleton] at h
    exact str_ne_of_mismatch _ _ 0 't' 'c' (by decide) (by decide)
      (by decide) (congrArg Prod.snd h)
  · intro h
    rcases List.mem_cons.mp h with he | h
    · exact str_ne_of_mismatch _ _ 0 'p' 'c' (by decide) (by decide)
        (by decide) (congrArg Prod.snd he)
    rw [List.mem_singleton] at h
    exact str_ne_of_mismatch _ _ 0 'p' 'c' (by decide) (by decide)
      (by decide) (congrArg Prod.snd h)
  · intro h
    rw [List.mem_singleton] at h
    exact str_ne_of_mismatch _ _ 18 'd' 'a' (by decide) (by decide)
      (by decide) (congrArg Prod.snd h)

/-- One worker stack's two parameter keys differ. -/
lemma workerRK_nodup (w : IWorker) : (workerRK w).Nodup := by
  refine List.nodup_cons.mpr ⟨?_, List.nodup_singleton _⟩
  intro h
  rw [List.mem_singleton] at h
  exact str_ne_of_mismatch _ _ 4 'p' 'a' (by decide) (by decide)
    (by decide) (congrArg Prod.snd h)

/-- One sync stack's two parameter keys differ. -/
lemma syncRK_nodup (wx : IWorker) : (syncRK wx).Nodup := by
  refine List.nodup_cons.mpr ⟨?_, List.nodup_singleton _⟩
  intro h
  rw [List.mem_singleton] at h
  exact str_ne_of_mismatch _ _ 0 'c' 'w' (by decide) (by decide)
    (by decide) (congrArg Prod.snd h)

/-- The worker stacks' (region, key) pairs are duplicate-free when the
worker regions are pairwise distinct. -/
lemma workerRKFlat_nodup {ws : List IWorker}
    (hregs : (ws.map (fun w => w.region)).Nodup) :
    (ws.flatMap workerRK).Nodup := by
  rw [List.nodup_flatMap]
  refine ⟨fun w _ => workerRK_nodup w, ?_⟩
  rw [List.Nodup, List.pairwise_map] at hregs
  refine hregs.imp ?_
  intro w1 w2 hne k hk1 hk2
  exact hne ((mem_workerRK hk1).1.symm.trans (mem_workerRK hk2).1)

/-- The worker-to-worker wiring's (region, key) pairs are duplicate-free
when the worker regions are pairwise distinct. -/
lemma w2wRK_nodup :
    ∀ {l : List IWorker}, (l.map (fun w => w.region)).Nodup →
      (w2wRK l).Nodup := by
  intro l
  induction l with
  | nil => intro _; exact List.nodup_nil
  | cons wx rest ih =>
    intro hregs
    have hxr : wx.region ∉ rest.map (fun w => w.region) :=
      (List.nodup_cons.mp hregs).1
    have hregs2 : (rest.map (fun w => w.region)).Nodup :=
      (List.nodup_cons.mp hregs).2
    rw [w2wRK, List.nodup_append]
    refine ⟨List.nodup_append.mpr ⟨?_, syncRK_nodup wx, ?_⟩, ih hregs2, ?_⟩
    · rw [List.Nodup, List.pairwise_map]
      rw [List.Nodup, List.pairwise_map] at hregs2
      refine hregs2.imp ?_
      intro y1 y2 hne he
      have hk : "tgw-attachmentid-" ++ wx.region ++ "-" ++ y1.region =
          "tgw-attachmentid-" ++ wx.region ++ "-" ++ y2.region :=
        congrArg Prod.snd he
      exact hne (str_append_left_cancel hk)
    · intro k hk1 hk2
      obtain ⟨y, _, rfl⟩ := List.mem_map.mp hk1
      rcases List.mem_cons.mp hk2 with he | h2
      · have hkey : "tgw-attachmentid-" ++ wx.region ++ "-" ++ y.region =
            "client-region-for-dask-worker-" ++ wx.region :=
          congrArg Prod.snd he
        rw [pairKey_assoc] at hkey
        exact str_ne_of_mismatch _ _ 0 't' 'c' (by decide) (by decide)
          (by decide) hkey
      · rw [List.mem_singleton] at h2
        have hkey : "tgw-attachmentid-" ++ wx.region ++ "-" ++ y.region =
            "worker-region-data-bucket-for-dask-worker-" ++ wx.region :=
          congrArg Prod.snd h2
        rw [pairKey_assoc] at hkey
        exact str_ne_of_mismatch _ _ 0 't' 'w' (by decide) (by decide)
          (by decide) hkey
    · intro k hk1 hk2
      obtain ⟨x, hx, hk21, _⟩ := mem_w2wRK hk2
      have h1 : k.1 = wx.region := by
        rcases List.mem_append.mp hk1 with h | h
        · obtain ⟨y, _, rfl⟩ := List.mem_map.mp h
          rfl
        · rcases List.mem_cons.mp h with rfl | h
          · rfl
          · rw [List.mem_singleton] at h
            subst h
            rfl
      exact hxr (by
        rw [h1.symm.trans hk21]
        exact List.mem_map.mpr ⟨x, hx, rfl⟩)

/-! ### Stack membership analysis and per-stack extraction values -/

/-- A resource of peering kind witnesses a peering extraction entry. -/
lemma mem_peeringsOf {s : StackDef} {r : Resource} {p : String}
    (hr : r ∈ s.resources) (hres : r.res = .peeringAttachment p) :
    (s.region, p) ∈ peeringsOf s :=
  List.mem_filterMap.mpr ⟨r, hr, by rw [peeringCls, hres]⟩

/-- A resource of gateway-route kind witnesses a gateway-route extraction
entry. -/
lemma mem_tgwRoutesOf {s : StackDef} {r : Resource} {t : RouteTable}
    {d : String} {a : AttachmentRef} (hr : r ∈ s.resources)
    (hres : r.res = .tgwRoute t d a) : (t, d, a) ∈ tgwRoutesOf s :=
  List.mem_filterMap.mpr ⟨r, hr, by rw [tgwRouteCls, hres]⟩

/-- Peerings of a worker-link route stack: none. -/
lemma peeringsOf_WRTGWRoute (name region : String) (client : IClient)
    (tgwo : String) (att : String × String) (dep ref : List String) :
    peeringsOf (WorkerRegionTransitGatewayRoute name region client tgwo att
      dep ref) = [] := by
  simp [peeringsOf, peeringCls, WorkerRegionTransitGatewayRoute]

/-- Peerings of a client-side route stack: none. -/
lemma peeringsOf_C2WRoute (name region : String) (ctgwo : String)
    (w : IWorker) (dep ref : List String) :
    peeringsOf (ClientToWorkerTransitGatewayRoute name region ctgwo w
      dep ref) = [] := by
  simp [peeringsOf, peeringCls, ClientToWorkerTransitGatewayRoute]

/-- Peerings of an inter-region route stack: none. -/
lemma peeringsOf_Inter (name region : String) (peer : IWorker)
    (tgwo vpco : String) (nsub : String → Nat) (dep ref : List String) :
    peeringsOf (InterRegionTransitGatewayRoute name region peer tgwo vpco
      nsub dep ref) = [] := by
  simp [peeringsOf, peeringCls, InterRegionTransitGatewayRoute_resources,
    InterRegionTransitGatewayRoute_region]

/-- Peerings of a sync stack: none. -/
lemma peeringsOf_Sync (name region : String) (c : IClient) (w : IWorker)
    (ref : List String) :
    peeringsOf (SyncLustreToOpenSearch name region c w ref) = [] := by
  simp [peeringsOf, peeringCls, SyncLustreToOpenSearch]

/-- Peerings of a worker-to-worker stack: exactly one, toward the peer. -/
lemma peeringsOf_W2W (name region : String) (peer : IWorker) (vpco : String)
    (nsub : String → Nat) (ref : List String) :
    peeringsOf (WorkerToWorkerTGW name region peer vpco nsub ref) =
      [(region, peer.region)] := by
  simp [peeringsOf, peeringCls, WorkerToWorkerTGW_resources,
    WorkerToWorkerTGW_region]

/-- Gateway routes of the worker bootstrap stack: none. -/
lemma tgwRoutesOf_WorkerRegion (c : IClient) (w : IWorker)
    (nsub : String → Nat) : tgwRoutesOf (WorkerRegion c w nsub) = [] := by
  simp [tgwRoutesOf, tgwRouteCls, WorkerRegion_resources]

/-- Gateway routes of a worker-link route stack. -/
lemma tgwRoutesOf_WRTGWRoute (name region : String) (client : IClient)
    (tgwo : String) (att : String × String) (dep ref : List String) :
    tgwRoutesOf (WorkerRegionTransitGatewayRoute name region client tgwo att
      dep ref) =
      [(RouteTable.gatewayTable tgwo, client.cidr, .direct att.1 att.2)] := by
  simp [tgwRoutesOf, tgwRouteCls, WorkerRegionTransitGatewayRoute]

/-- Gateway routes of a client-side route stack. -/
lemma tgwRoutesOf_C2WRoute (name region : String) (ctgwo : String)
    (w : IWorker) (dep ref : List String) :
    tgwRoutesOf (ClientToWorkerTransitGatewayRoute name region ctgwo w
      dep ref) =
      [(RouteTable.gatewayTable ctgwo, w.cidr,
        .fetched w.region ("tgw-attachmentid-" ++ w.region))] := by
  simp [tgwRoutesOf, tgwRouteCls, ClientToWorkerTransitGatewayRoute]

/-- Gateway routes of a worker-to-worker stack: none. -/
lemma tgwRoutesOf_W2W (name region : String) (peer : IWorker) (vpco : String)
    (nsub : String → Nat) (ref : List String) :
    tgwRoutesOf (WorkerToWorkerTGW name region peer vpco nsub ref) = [] := by
  simp [tgwRoutesOf, tgwRouteCls, WorkerToWorkerTGW_resources]

/-- Gateway routes of an inter-region route stack. -/
lemma tgwRoutesOf_Inter (name region : String) (peer : IWorker)
    (tgwo vpco : String) (nsub : String → Nat) (dep ref : List String) :
    tgwRoutesOf (InterRegionTransitGatewayRoute name region peer tgwo vpco
      nsub dep ref) =
      [(RouteTable.gatewayTable tgwo, peer.cidr,
        .fetched peer.region
          ("tgw-attachmentid-" ++ peer.region ++ "-" ++ region))] := by
  simp [tgwRoutesOf, tgwRouteCls, InterRegionTransitGatewayRoute_resources]

/-- Gateway routes of a sync stack: none. -/
lemma tgwRoutesOf_Sync (name region : String) (c : IClient) (w : IWorker)
    (ref : List String) :
    tgwRoutesOf (SyncLustreToOpenSearch name region c w ref) = [] := by
  simp [tgwRoutesOf, tgwRouteCls, SyncLustreToOpenSearch]

/-- Case analysis for stacks of the worker-to-worker wiring: a stack is part
of some pair's triple — whose peering stack is also in the wiring — or is a
sync stack. -/
lemma mem_w2wSection_cases {c : IClient} {nsub : String → Nat} :
    ∀ {l : List IWorker} {s : StackDef}, s ∈ w2wSection c nsub l →
      (∃ x ∈ l, ∃ y ∈ l, s ∈ w2wTriple nsub x y ∧
        WorkerToWorkerTGW ("TGW-Peer-Region-" ++ x.region ++ "-to-" ++ y.region)
          x.region y x.region nsub ["Worker-Region-" ++ x.region] ∈
            w2wSection c nsub l)
      ∨ ∃ x ∈ l, s = SyncLustreToOpenSearch
          ("ZyncLustreToOpenSearch-" ++ x.region) x.region c x
          ["Worker-Region-" ++ x.region] := by
  intro l
  induction l with
  | nil => intro s h; cases h
  | cons wx rest ih =>
    intro s h
    rcases List.mem_append.mp h with h | h
    · rcases List.mem_append.mp h with h | h
      · obtain ⟨wy, hwy, hs⟩ := List.mem_flatMap.mp h
        refine Or.inl ⟨wx, List.mem_cons_self _ _, wy,
          List.mem_cons_of_mem _ hwy, hs, ?_⟩
        refine List.mem_append.mpr (Or.inl (List.mem_append.mpr (Or.inl ?_)))
        exact List.mem_flatMap.mpr ⟨wy, hwy, List.mem_cons_self _ _⟩
      · rw [List.mem_singleton] at h
        exact Or.inr ⟨wx, List.mem_cons_self _ _, h⟩
    · rcases ih h with ⟨x, hx, y, hy, hs, hw2w⟩ | ⟨x, hx, hs⟩
      · exact Or.inl ⟨x, List.mem_cons_of_mem _ hx, y,
          List.mem_cons_of_mem _ hy, hs,
          List.mem_append.mpr (Or.inr hw2w)⟩
      · exact Or.inr ⟨x, List.mem_cons_of_mem _ hx, hs⟩

/-- Each worker bootstrap stack is in the app. -/
lemma workerStack_mem_buildApp {c : IClient} {ws : List IWorker}
    {nsub : String → Nat} {w : IWorker} (hw : w ∈ ws) :
    WorkerRegion c w nsub ∈ buildApp c ws nsub := by
  refine List.mem_append.mpr (Or.inl (List.mem_append.mpr (Or.inr ?_)))
  exact List.mem_flatMap.mpr ⟨w, hw, List.mem_cons_self _ _⟩

/-- The client stack is in the app. -/
lemma clientStack_mem_buildApp {c : IClient} {ws : List IWorker}
    {nsub : String → Nat} : ClientRegion c ws nsub ∈ buildApp c ws nsub := by
  refine List.mem_append.mpr (Or.inl (List.mem_append.mpr (Or.inl ?_)))
  exact List.mem_singleton.mpr rfl

/-- Stacks of the worker-to-worker wiring are in the app. -/
lemma w2wSection_subset_buildApp {c : IClient} {ws : List IWorker}
    {nsub : String → Nat} {s : StackDef} (h : s ∈ w2wSection c nsub ws) :
    s ∈ buildApp c ws nsub :=
  List.mem_append.mpr (Or.inr h)

/-- Full case analysis of app membership. -/
lemma mem_buildApp_cases {c : IClient} {ws : List IWorker}
    {nsub : String → Nat} {s : StackDef} (h : s ∈ buildApp c ws nsub) :
    s = ClientRegion c ws nsub
    ∨ (∃ w ∈ ws, s = WorkerRegion c w nsub
        ∨ s = WorkerRegionTransitGatewayRoute
            ("Worker-Region-TGW-Route-" ++ w.region) w.region c w.region
            (w.region, c.region) ["Worker-Region-" ++ w.region]
            ["Worker-Region-" ++ w.region]
        ∨ s = ClientToWorkerTransitGatewayRoute
            ("Client-Region-TGW-Route-" ++ w.region) c.region c.region w
            ["Worker-Region-" ++ w.region] ["Client-Region"])
    ∨ (∃ x ∈ ws, ∃ y ∈ ws, s ∈ w2wTriple nsub x y ∧
        WorkerToWorkerTGW ("TGW-Peer-Region-" ++ x.region ++ "-to-" ++ y.region)
          x.region y x.region nsub ["Worker-Region-" ++ x.region] ∈
            w2wSection c nsub ws)
    ∨ ∃ x ∈ ws, s = SyncLustreToOpenSearch
        ("ZyncLustreToOpenSearch-" ++ x.region) x.region c x
        ["Worker-Region-" ++ x.region] := by
  rcases List.mem_append.mp h with h | h
  · rcases List.mem_append.mp h with h | h
    · rw [List.mem_singleton] at h
      exact Or.inl h
    · obtain ⟨w, hw, hs⟩ := List.mem_flatMap.mp h
      rcases List.mem_cons.mp hs with rfl | hs
      · exact Or.inr (Or.inl ⟨w, hw, Or.inl rfl⟩)
      rcases List.mem_cons.mp hs with rfl | hs
      · exact Or.inr (Or.inl ⟨w, hw, Or.inr (Or.inl rfl)⟩)
      rw [List.mem_singleton] at hs
      exact Or.inr (Or.inl ⟨w, hw, Or.inr (Or.inr hs)⟩)
  · rcases mem_w2wSection_cases h with ⟨x, hx, y, hy, hs, hw2w⟩ | ⟨x, hx, hs⟩
    · exact Or.inr (Or.inr (Or.inl ⟨x, hx, y, hy, hs, hw2w⟩))
    · exact Or.inr (Or.inr (Or.inr ⟨x, hx, hs⟩))

/-! ### The ordering requirements of the spec as decidable checks -/

/-- Does a resource create a transit gateway? -/
def isTransitGateway (r : Resource) : Bool :=
  match r.res with
  | .transitGateway => true
  | _ => false

/-- Names of the stacks that bootstrap region `reg` (deploy to it and create
its gateway). -/
def gatewayStackNames (app : List StackDef) (reg : String) : List String :=
  (app.filter (fun s => s.region == reg && s.resources.any isTransitGateway)).map
    (fun s => s.name)

/-- C1 as a decidable check: every stack that creates a peering attachment
is, by declared build-order edges (reflexively and transitively), a
dependent of a bootstrap stack of the initiator region and of a bootstrap
stack of the target region. -/
def claimC1Check (app : List StackDef) : Bool :=
  app.all (fun s => s.resources.all (fun r =>
    match r.res with
    | .peeringAttachment peer =>
        (gatewayStackNames app s.region).any
            (fun b => dependsOnStack app s.name b)
          && (gatewayStackNames app peer).any
            (fun b => dependsOnStack app s.name b)
    | _ => true))

/-- The region owning a route table. -/
def tableOwner : RouteTable → String
  | .subnetTable r _ => r
  | .gatewayTable r => r

/-- The configured region whose CIDR block is `d`. -/
def regionWithCidr (c : IClient) (ws : List IWorker) (d : String) :
    Option String :=
  (((c.region, c.cidr) :: ws.map (fun w => (w.region, w.cidr))).find?
    (fun p => p.2 == d)).map (fun p => p.1)

/-- The pair of regions a route entry converges: the table's owner and the
region whose address block it targets. -/
def routeEndpoints (c : IClient) (ws : List IWorker) : Res → Option (String × String)
  | .subnetRoute t d => (regionWithCidr c ws d).map (fun o => (tableOwner t, o))
  | .tgwRoute t d _ => (regionWithCidr c ws d).map (fun o => (tableOwner t, o))
  | _ => none

/-- Locations (stack name, construct id) of the accept calls for the
unordered pair `(e1, e2)`. -/
def acceptLocationsFor (app : List StackDef) (e1 e2 : String) :
    List (String × String) :=
  app.flatMap (fun s => s.resources.filterMap (fun r =>
    match r.res with
    | .acceptAttachment i p _ =>
        if (i == e1 && p == e2) || (i == e2 && p == e1) then
          some (s.name, r.cid)
        else none
    | _ => none))

/-- C2 as a decidable check: every route entry (subnet-level and
gateway-level alike) is preceded, in the declared build order, by an accept
call of its pair. -/
def claimC2Check (c : IClient) (ws : List IWorker) (nsub : String → Nat) : Bool :=
  (buildApp c ws nsub).all (fun s => s.resources.all (fun r =>
    match routeEndpoints c ws r.res with
    | none => true
    | some pq =>
        (acceptLocationsFor (buildApp c ws nsub) pq.1 pq.2).any
          (fun loc => resourceBefore (buildApp c ws nsub) loc (s.name, r.cid))))

/-- A configuration whose region identifiers are pairwise distinct but where
one worker's region equals the hyphen-join of two others. -/
def collideClient : IClient := ⟨"cr", "10.0.0.0/16"⟩

/-- Workers for the colliding configuration. -/
def collideWorkers : List IWorker :=
  [ ⟨"a", "10.1.0.0/16", "s3://d1", "p1"⟩,
    ⟨"b", "10.2.0.0/16", "s3://d2", "p2"⟩,
    ⟨"a-b", "10.3.0.0/16", "s3://d3", "p3"⟩ ]

/-! ### The Parameter Exchange fetch protocol -/

/-- The shape of an SDK call issued by an `AwsCustomResource`
(`lib/SdkConstructs/accept-tgw-request-client.ts`). -/
structure SdkCallSpec where
  service : String
  action : String
  paramName : String
  callRegion : String
deriving DecidableEq, Repr

/-- The SDK calls `SSMParameterReader` issues on deployment
(`lib/SdkConstructs/accept-tgw-request-client.ts`): its `onUpdate` holds
exactly one `SSM getParameter` call against the queried region, with no
retry configuration and no polling loop. -/
def ssmParameterReaderCalls (parameterName region : String) :
    List SdkCallSpec :=
  [⟨"SSM", "getParameter", parameterName, region⟩]

/-- Modelled from the spec: the error outcomes of a Parameter Exchange
fetch — `ParameterNotFound` when the key was never published in the queried
region, `RemoteCallFailed` when the cross-region call cannot be
authenticated or the target region is unreachable. -/
inductive FetchError
  | parameterNotFound
  | remoteCallFailed
deriving DecidableEq, Repr

/-- Modelled from the spec: `fetch(key, region)` against a store of
published `(region, key, value)` triples — a single blocking read that
returns the stored value, fails with `RemoteCallFailed` when the queried
region is unreachable, and with `ParameterNotFound` when no matching
publication exists; there is no polling and no backoff. -/
def fetchParam (reach : String → Bool)
    (store : List (String × String × ParamValue)) (region key : String) :
    Except FetchError ParamValue :=
  if reach region then
    match store.find? (fun e => e.1 == region && e.2.1 == key) with
    | some e => Except.ok e.2.2
    | none => Except.error FetchError.parameterNotFound
  else Except.error FetchError.remoteCallFailed

/-- Modelled from the spec: a provisioning step either publishes a
parameter or fetches one. -/
inductive Step
  | put (region key : String) (v : ParamValue)
  | read (region key : String)
deriving DecidableEq, Repr

/-- Modelled from the spec: the orchestrator runs its steps in order; a
failed fetch is fatal — it aborts the run at once, unretried, and none of
the later (dependent) steps execute. -/
def runSteps (reach : String → Bool) :
    List Step → List (String × String × ParamValue) →
      Except FetchError (List (String × String × ParamValue))
  | [], store => Except.ok store
  | Step.put r k v :: rest, store => runSteps reach rest ((r, k, v) :: store)
  | Step.read r k :: rest, store =>
      match fetchParam reach store r k with
      | Except.error e => Except.error e
      | Except.ok _ => runSteps reach rest store

/-! ### Counting subnet-route keys -/

/-- How many route keys one range-indexed subnet-route segment contributes
for a given (subnet route table, destination) key. -/
lemma count_subnet_seg (reg cidr r d : String) (i : Nat) :
    ∀ n : Nat,
      ((List.range n).map
          (fun j => (RouteTable.subnetTable reg j, cidr))).count
          (RouteTable.subnetTable r i, d) =
        if reg = r ∧ cidr = d ∧ i < n then 1 else 0 := by
  intro n
  induction n with
  | zero => simp
  | succ m ih =>
    rw [List.range_succ, List.map_append, List.count_append, ih]
    simp only [List.map_cons, List.map_nil, List.count_cons, List.count_nil,
      beq_iff_eq, Prod.mk.injEq, RouteTable.subnetTable.injEq]
    by_cases h1 : reg = r
    · subst h1
      by_cases h2 : cidr = d
      · subst h2
        by_cases h3 : i = m
        · subst h3
          simp [Nat.lt_irrefl, Nat.lt_succ_self]
        · by_cases h4 : i < m
          · have h5 : i < m + 1 := by omega
            simp [h3, h4, h5, Ne.symm h3]
          · have h5 : ¬ i < m + 1 := by omega
            simp [h3, h4, h5, Ne.symm h3]
      · simp [h2]
    · simp [h1]

/-! ### Claim theorems -/

/-- C1 counterexample: on the shipped configuration the worker-to-worker
link stack `TGW-Peer-Region-us-east-1-to-us-west-2` creates the pair's
peering attachment, `us-west-2`'s gateway is bootstrapped only by
`Worker-Region-us-west-2`, yet no declared build-order path makes the link
stack a dependent of that bootstrap stack — so C1's requirement fails. -/
theorem w2w_link_lacks_target_bootstrap_dependency :
    claimC1Check (buildApp defClient defWorkers (fun _ => 1)) = false
    ∧ ("us-east-1", "us-west-2") ∈
        peeringPairs (buildApp defClient defWorkers (fun _ => 1))
    ∧ gatewayStackNames (buildApp defClient defWorkers (fun _ => 1))
        "us-west-2" = ["Worker-Region-us-west-2"]
    ∧ dependsOnStack (buildApp defClient defWorkers (fun _ => 1))
        "TGW-Peer-Region-us-east-1-to-us-west-2" "Worker-Region-us-west-2" =
        false := by
  decide

/-- C1 (amended): for every client-worker link the prerequisite holds — the
worker bootstrap stack, which itself creates the initiator gateway and the
peering request, declares an explicit dependency on the client bootstrap
stack, which creates the client gateway and publishes its reference. For
every worker-worker link, the creation stack's declared dependencies are
exactly the reference-implied edge to the initiator worker's bootstrap
stack; no declared dependency on the target worker's bootstrap stack
exists, as exhibited on the shipped configuration. -/
theorem link_creation_dependency_scope (c : IClient) (ws : List IWorker)
    (nsub : String → Nat) :
    (∀ w ∈ ws,
      WorkerRegion c w nsub ∈ buildApp c ws nsub
      ∧ (WorkerRegion c w nsub).dependsOn = ["Client-Region"]
      ∧ (⟨"Peering Connection", .peeringAttachment c.region,
          ["TGW", "TGW Param"]⟩ : Resource) ∈ (WorkerRegion c w nsub).resources
      ∧ (⟨"TGW", .transitGateway, []⟩ : Resource) ∈
          (WorkerRegion c w nsub).resources
      ∧ (ClientRegion c ws nsub).name = "Client-Region"
      ∧ (⟨"TGW", .transitGateway, []⟩ : Resource) ∈
          (ClientRegion c ws nsub).resources
      ∧ (⟨"TGW Param", .publishParam ("tgw-param-" ++ c.region)
          (.tgwRef c.region), ["TGW"]⟩ : Resource) ∈
          (ClientRegion c ws nsub).resources)
    ∧ (∀ s ∈ w2wSection c nsub ws, ∀ r ∈ s.resources, ∀ p : String,
        r.res = .peeringAttachment p →
          s.dependsOn = [] ∧ s.refDeps = ["Worker-Region-" ++ s.region]
          ∧ ∃ x ∈ ws, ∃ y ∈ ws, s.region = x.region ∧ p = y.region)
    ∧ dependsOnStack (buildApp defClient defWorkers (fun _ => 1))
        "TGW-Peer-Region-us-east-1-to-us-west-2" "Worker-Region-us-west-2" =
        false := by
  refine ⟨?_, ?_, by decide⟩
  · intro w hw
    refine ⟨workerStack_mem_buildApp hw, rfl, ?_, ?_, rfl, ?_, ?_⟩
    · rw [WorkerRegion_resources]
      simp
    · rw [WorkerRegion_resources]
      simp
    · rw [ClientRegion_resources]
      simp
    · rw [ClientRegion_resources]
      simp
  · intro s hs r hr p hres
    rcases mem_w2wSection_cases hs with ⟨x, hx, y, hy, hst, _⟩ | ⟨x, hx, rfl⟩
    · rcases List.mem_cons.mp hst with rfl | hst
      · have hmem := mem_peeringsOf hr hres
        rw [peeringsOf_W2W] at hmem
        rw [List.mem_singleton] at hmem
        exact ⟨rfl, rfl, x, hx, y, hy, rfl, congrArg Prod.snd hmem⟩
      rcases List.mem_cons.mp hst with rfl | hst
      · have hmem := mem_peeringsOf hr hres
        rw [peeringsOf_WRTGWRoute] at hmem
        cases hmem
      · rw [List.mem_singleton] at hst
        subst hst
        have hmem := mem_peeringsOf hr hres
        rw [peeringsOf_Inter] at hmem
        cases hmem
    · have hmem := mem_peeringsOf hr hres
      rw [peeringsOf_Sync] at hmem
      cases hmem

/-- Witness for the amended C1 at the shipped configuration: the first
worker's link to the client. -/
theorem link_creation_dependency_scope_witness :
    WorkerRegion defClient ⟨"us-east-1", "10.1.0.0/16", "s3://era5-pds",
        "era5-pds"⟩ (fun _ => 1) ∈
      buildApp defClient defWorkers (fun _ => 1) :=
  (((link_creation_dependency_scope defClient defWorkers (fun _ => 1)).1
    ⟨"us-east-1", "10.1.0.0/16", "s3://era5-pds", "era5-pds"⟩
    (by decide)).1)

/-- C6: with pairwise-distinct region identifiers and pairwise-distinct CIDR
blocks, the whole provisioning run creates at most one route entry per
(route table, destination CIDR) pair — across every private subnet route
table and every gateway default route table. -/
theorem at_most_one_route_per_table_and_destination (c : IClient)
    (ws : List IWorker) (nsub : String → Nat)
    (hreg : (c.region :: ws.map (fun w => w.region)).Nodup)
    (hcid : (c.cidr :: ws.map (fun w => w.cidr)).Nodup) :
    (routeKeys (buildApp c ws nsub)).Nodup := by
  have hcr : c.region ∉ ws.map (fun w => w.region) := (List.nodup_cons.mp hreg).1
  have hregs : (ws.map (fun w => w.region)).Nodup := (List.nodup_cons.mp hreg).2
  have hcc : c.cidr ∉ ws.map (fun w => w.cidr) := (List.nodup_cons.mp hcid).1
  have hcids : (ws.map (fun w => w.cidr)).Nodup := (List.nodup_cons.mp hcid).2
  rw [routeKeys, subnetRouteKeys_buildApp, tgwRouteEntries_buildApp,
    List.map_append, List.map_flatMap]
  simp only [map_key_workerGwEntries, map_key_w2wGwEntries]
  have dAB : (clientSubnetKeys c ws (nsub c.region)).Disjoint
      (ws.flatMap fun w => workerSubnetKeys c w (nsub w.region)) := by
    intro k hk1 hk2
    obtain ⟨w1, hw1, i, rfl⟩ := mem_clientSubnetKeys hk1
    obtain ⟨w2, hw2, j, he⟩ := mem_workerSubnetFlat hk2
    simp only [Prod.mk.injEq, RouteTable.subnetTable.injEq] at he
    exact hcr (by rw [he.1.1]; exact List.mem_map.mpr ⟨w2, hw2, rfl⟩)
  have dABC : (clientSubnetKeys c ws (nsub c.region)
      ++ ws.flatMap (fun w => workerSubnetKeys c w (nsub w.region))).Disjoint
      (w2wSubnetKeys nsub ws) := by
    intro k hk1 hk2
    obtain ⟨⟨x, hx, i2, hC1⟩, y, hy, hC2⟩ := mem_w2wSubnetKeys hk2
    rcases List.mem_append.mp hk1 with h | h
    · obtain ⟨w1, hw1, i, rfl⟩ := mem_clientSubnetKeys h
      have he : RouteTable.subnetTable c.region i =
          RouteTable.subnetTable x.region i2 := hC1
      simp only [RouteTable.subnetTable.injEq] at he
      exact hcr (by rw [he.1]; exact List.mem_map.mpr ⟨x, hx, rfl⟩)
    · obtain ⟨w1, hw1, i, rfl⟩ := mem_workerSubnetFlat h
      have he : c.cidr = y.cidr := hC2
      exact hcc (by rw [he]; exact List.mem_map.mpr ⟨y, hy, rfl⟩)
  have dDE : (ws.flatMap (workerGwKeys c)).Disjoint (w2wGwKeys ws) := by
    intro k hk1 hk2
    obtain ⟨⟨x, hx, hE1⟩, y, hy, hE2⟩ := mem_w2wGwKeys hk2
    obtain ⟨w, hw, hk | hk⟩ := mem_workerGwFlat hk1
    · subst hk
      have he : c.cidr = y.cidr := hE2
      exact hcc (by rw [he]; exact List.mem_map.mpr ⟨y, hy, rfl⟩)
    · subst hk
      have he : RouteTable.gatewayTable c.region =
          RouteTable.gatewayTable x.region := hE1
      simp only [RouteTable.gatewayTable.injEq] at he
      exact hcr (by rw [he]; exact List.mem_map.mpr ⟨x, hx, rfl⟩)
  have dSG : ((clientSubnetKeys c ws (nsub c.region)
      ++ ws.flatMap (fun w => workerSubnetKeys c w (nsub w.region)))
      ++ w2wSubnetKeys nsub ws).Disjoint
      (ws.flatMap (workerGwKeys c) ++ w2wGwKeys ws) := by
    intro k hk1 hk2
    obtain ⟨r, i, h1⟩ := subnet_keys_shape hk1
    obtain ⟨r2, h2⟩ := gw_keys_shape hk2
    rw [h1] at h2
    exact RouteTable.noConfusion h2
  refine List.nodup_append.mpr ⟨?_, ?_, dSG⟩
  · exact List.nodup_append.mpr
      ⟨List.nodup_append.mpr
        ⟨clientSubnetKeys_nodup hcids, workerSubnetFlat_nodup hregs, dAB⟩,
       w2wSubnetKeys_nodup hregs hcids, dABC⟩
  · exact List.nodup_append.mpr
      ⟨workerGwFlat_nodup hreg hcid, w2wGwKeys_nodup hregs hcids, dDE⟩

/-- C10 counterexample: with pairwise-distinct region identifiers (and
pairwise-distinct CIDRs), the published keys are not globally distinct —
worker `a-b` publishes its client-link attachment id under
`tgw-attachmentid-a-b`, the same key string the pair `(a, b)` uses for its
worker-link attachment id. -/
theorem published_keys_not_globally_unique :
    ((collideClient.region :: collideWorkers.map (fun w => w.region)).Nodup
      ∧ (collideClient.cidr :: collideWorkers.map (fun w => w.cidr)).Nodup)
    ∧ ¬ (paramKeys (buildApp collideClient collideWorkers (fun _ => 1))).Nodup := by
  decide

/-- C10 (amended): provided the configured region identifiers are pairwise
distinct, the (owning region, key) pairs of all published parameters are
pairwise distinct — every key is unique within the region it is published
in, so no publish ever overwrites a value of a different kind or of a
different link. -/
theorem published_param_region_keys_unique (c : IClient) (ws : List IWorker)
    (nsub : String → Nat)
    (hreg : (c.region :: ws.map (fun w => w.region)).Nodup) :
    (paramRegionKeys (buildApp c ws nsub)).Nodup := by
  have hcr : c.region ∉ ws.map (fun w => w.region) := (List.nodup_cons.mp hreg).1
  have hregs : (ws.map (fun w => w.region)).Nodup := (List.nodup_cons.mp hreg).2
  rw [paramRegionKeys_buildApp]
  refine List.nodup_append.mpr
    ⟨List.nodup_append.mpr
      ⟨clientRK_nodup c, workerRKFlat_nodup hregs, ?_⟩,
     w2wRK_nodup hregs, ?_⟩
  · intro k hk1 hk2
    obtain ⟨w, hw, hkB⟩ := List.mem_flatMap.mp hk2
    exact hcr (by
      rw [(mem_clientRK hk1).symm.trans (mem_workerRK hkB).1]
      exact List.mem_map.mpr ⟨w, hw, rfl⟩)
  · intro k hk1 hk2
    obtain ⟨x, hx, hC1, hCsh⟩ := mem_w2wRK hk2
    rcases List.mem_append.mp hk1 with h | h
    · exact hcr (by
        rw [(mem_clientRK h).symm.trans hC1]
        exact List.mem_map.mpr ⟨x, hx, rfl⟩)
    · obtain ⟨w, hw, hkB⟩ := List.mem_flatMap.mp h
      obtain ⟨hB1, hBsh⟩ := mem_workerRK hkB
      have hwx : w.region = x.region := hB1.symm.trans hC1
      rcases hBsh with hkey | hkey <;>
        rcases hCsh with ⟨y, hy, hkey2⟩ | hkey2 | hkey2
      · have he := hkey.symm.trans hkey2
        rw [pairKey_assoc] at he
        exact str_ne_of_mismatch _ _ 4 'p' 'a' (by decide) (by decide)
          (by decide) he
      · exact str_ne_of_mismatch _ _ 0 't' 'c' (by decide) (by decide)
          (by decide) (hkey.symm.trans hkey2)
      · exact str_ne_of_mismatch _ _ 0 't' 'w' (by decide) (by decide)
          (by decide) (hkey.symm.trans hkey2)
      · have he := hkey.symm.trans hkey2
        rw [hwx] at he
        exact str_ne_append_append ("tgw-attachmentid-" ++ x.region) "-"
          y.region (by decide) he
      · exact str_ne_of_mismatch _ _ 0 't' 'c' (by decide) (by decide)
          (by decide) (hkey.symm.trans hkey2)
      · exact str_ne_of_mismatch _ _ 0 't' 'w' (by decide) (by decide)
          (by decide) (hkey.symm.trans hkey2)

/-- Witness for the amended C10 at the shipped configuration. -/
theorem published_param_region_keys_unique_witness :
    (paramRegionKeys (buildApp defClient defWorkers (fun _ => 1))).Nodup :=
  published_param_region_keys_unique defClient defWorkers (fun _ => 1)
    (by decide)

/-- Witness for C6 at the shipped configuration. -/
theorem at_most_one_route_per_table_and_destination_witness :
    (routeKeys (buildApp defClient defWorkers (fun _ => 1))).Nodup :=
  at_most_one_route_per_table_and_destination defClient defWorkers (fun _ => 1)
    (by decide) (by decide)

/-- C2 counterexample: on the shipped configuration the client stack's
subnet-level route toward worker A's CIDR exists, the only accept call for
the (client, worker A) pair lives in `Worker-Region-us-east-1`, and no
declared build-order edge places that accept before the route — indeed the
accept's stack depends on the route's stack — so C2's requirement fails. -/
theorem subnet_routes_not_ordered_after_accept :
    claimC2Check defClient defWorkers (fun _ => 1) = false
    ∧ (⟨"Subnet to TGW - 0 - us-east-1",
        .subnetRoute (.subnetTable "eu-west-2" 0) "10.1.0.0/16",
        ["tgw-attachment"]⟩ : Resource) ∈
        (ClientRegion defClient defWorkers (fun _ => 1)).resources
    ∧ acceptLocationsFor (buildApp defClient defWorkers (fun _ => 1))
        "eu-west-2" "us-east-1" = [("Worker-Region-us-east-1", "Accept Request")]
    ∧ resourceBefore (buildApp defClient defWorkers (fun _ => 1))
        ("Worker-Region-us-east-1", "Accept Request")
        ("Client-Region", "Subnet to TGW - 0 - us-east-1") = false := by
  decide

/-- C2 (amended): gateway-level route entries are ordered after their
pair's accept — every stack adding a `CfnTransitGatewayRoute` declares an
explicit stack dependency on a stack that performs the accept call of the
same pair (the accept's attachment endpoints are the route table's owner on
one side and the region owning the destination CIDR on the other).
Subnet-level route entries carry no such ordering: inside the worker
bootstrap and worker-to-worker stacks they depend only on the peering
attachment's creation, inside the client stack only on the client's own
VPC attachment, and inside the inter-region route stack on nothing. -/
theorem route_convergence_ordering (c : IClient) (ws : List IWorker)
    (nsub : String → Nat) :
    (∀ s ∈ buildApp c ws nsub, ∀ r ∈ s.resources,
      ∀ (t : RouteTable) (d : String) (a : AttachmentRef),
        r.res = Res.tgwRoute t d a →
        ∃ s2 ∈ buildApp c ws nsub, s2.name ∈ s.dependsOn ∧
          ∃ r2 ∈ s2.resources, ∃ i p cr : String,
            r2.res = Res.acceptAttachment i p cr ∧
            ((tableOwner t = i ∧
                (p, d) ∈ (c.region, c.cidr) ::
                  ws.map (fun w => (w.region, w.cidr))) ∨
             (tableOwner t = p ∧
                (i, d) ∈ (c.region, c.cidr) ::
                  ws.map (fun w => (w.region, w.cidr)))))
    ∧ (∀ (w : IWorker) (r : Resource), r ∈ (WorkerRegion c w nsub).resources →
        ∀ t d, r.res = Res.subnetRoute t d → r.deps = ["Peering Connection"])
    ∧ (∀ r : Resource, r ∈ (ClientRegion c ws nsub).resources →
        ∀ t d, r.res = Res.subnetRoute t d → r.deps = ["tgw-attachment"])
    ∧ (∀ (name region : String) (peer : IWorker) (vpco : String)
          (refs : List String) (r : Resource),
        r ∈ (WorkerToWorkerTGW name region peer vpco nsub refs).resources →
        ∀ t d, r.res = Res.subnetRoute t d → r.deps = ["Peering Connection"])
    ∧ (∀ (name region : String) (peer : IWorker) (tgwo vpco : String)
          (dep refs : List String) (r : Resource),
        r ∈ (InterRegionTransitGatewayRoute name region peer tgwo vpco nsub
          dep refs).resources →
        ∀ t d, r.res = Res.subnetRoute t d → r.deps = []) := by
  refine ⟨?_, ?_, ?_, ?_, ?_⟩
  · intro s hs r hr t d a hres
    have hmem := mem_tgwRoutesOf hr hres
    rcases mem_buildApp_cases hs with rfl | ⟨w, hw, rfl | rfl | rfl⟩ |
      ⟨x, hx, y, hy, hst, hw2w⟩ | ⟨x, hx, rfl⟩
    · rw [tgwRoutesOf_ClientRegion] at hmem
      cases hmem
    · rw [tgwRoutesOf_WorkerRegion] at hmem
      cases hmem
    · rw [tgwRoutesOf_WRTGWRoute] at hmem
      rw [List.mem_singleton] at hmem
      have ht : t = RouteTable.gatewayTable w.region :=
        congrArg (fun e => e.1) hmem
      have hd : d = c.cidr := congrArg (fun e => e.2.1) hmem
      refine ⟨WorkerRegion c w nsub, workerStack_mem_buildApp hw,
        List.mem_singleton.mpr rfl,
        ⟨"Accept Request", .acceptAttachment w.region c.region c.region,
          ["Peering Connection"]⟩, ?_, w.region, c.region, c.region, rfl, ?_⟩
      · rw [WorkerRegion_resources]
        simp
      · refine Or.inl ⟨by rw [ht]; rfl, ?_⟩
        rw [hd]
        exact List.mem_cons_self _ _
    · rw [tgwRoutesOf_C2WRoute] at hmem
      rw [List.mem_singleton] at hmem
      have ht : t = RouteTable.gatewayTable c.region :=
        congrArg (fun e => e.1) hmem
      have hd : d = w.cidr := congrArg (fun e => e.2.1) hmem
      refine ⟨WorkerRegion c w nsub, workerStack_mem_buildApp hw,
        List.mem_singleton.mpr rfl,
        ⟨"Accept Request", .acceptAttachment w.region c.region c.region,
          ["Peering Connection"]⟩, ?_, w.region, c.region, c.region, rfl, ?_⟩
      · rw [WorkerRegion_resources]
        simp
      · refine Or.inr ⟨by rw [ht]; rfl, ?_⟩
        rw [hd]
        exact List.mem_cons_of_mem _ (List.mem_map.mpr ⟨w, hw, rfl⟩)
    · rcases List.mem_cons.mp hst with rfl | hst
      · rw [tgwRoutesOf_W2W] at hmem
        cases hmem
      rcases List.mem_cons.mp hst with rfl | hst
      · rw [tgwRoutesOf_WRTGWRoute] at hmem
        rw [List.mem_singleton] at hmem
        have ht : t = RouteTable.gatewayTable x.region :=
          congrArg (fun e => e.1) hmem
        have hd : d = y.cidr := congrArg (fun e => e.2.1) hmem
        refine ⟨WorkerToWorkerTGW
            ("TGW-Peer-Region-" ++ x.region ++ "-to-" ++ y.region) x.region y
            x.region nsub ["Worker-Region-" ++ x.region],
          w2wSection_subset_buildApp hw2w, List.mem_singleton.mpr rfl,
          ⟨"Accept Request", .acceptAttachment x.region y.region y.region,
            ["Peering Connection"]⟩, ?_, x.region, y.region, y.region, rfl, ?_⟩
        · rw [WorkerToWorkerTGW_resources]
          simp
        · refine Or.inl ⟨by rw [ht]; rfl, ?_⟩
          rw [hd]
          exact List.mem_cons_of_mem _ (List.mem_map.mpr ⟨y, hy, rfl⟩)
      · rw [List.mem_singleton] at hst
        subst hst
        rw [tgwRoutesOf_Inter] at hmem
        rw [List.mem_singleton] at hmem
        have ht : t = RouteTable.gatewayTable y.region :=
          congrArg (fun e => e.1) hmem
        have hd : d = x.cidr := congrArg (fun e => e.2.1) hmem
        refine ⟨WorkerToWorkerTGW
            ("TGW-Peer-Region-" ++ x.region ++ "-to-" ++ y.region) x.region y
            x.region nsub ["Worker-Region-" ++ x.region],
          w2wSection_subset_buildApp hw2w, List.mem_singleton.mpr rfl,
          ⟨"Accept Request", .acceptAttachment x.region y.region y.region,
            ["Peering Connection"]⟩, ?_, x.region, y.region, y.region, rfl, ?_⟩
        · rw [WorkerToWorkerTGW_resources]
          simp
        · refine Or.inr ⟨by rw [ht]; rfl, ?_⟩
          rw [hd]
          exact List.mem_cons_of_mem _ (List.mem_map.mpr ⟨x, hx, rfl⟩)
    · rw [tgwRoutesOf_Sync] at hmem
      cases hmem
  · intro w r hr t d hres
    rw [WorkerRegion_resources] at hr
    rcases List.mem_append.mp hr with h | h
    · rcases List.mem_append.mp h with h | h
      · simp only [List.mem_cons, List.not_mem_nil, or_false] at h
        rcases h with rfl | rfl | rfl | rfl | rfl | rfl | rfl | rfl <;>
          cases hres
      · obtain ⟨i, _, rfl⟩ := List.mem_map.mp h
        rfl
    · simp only [List.mem_cons, List.not_mem_nil, or_false] at h
      rcases h with rfl | rfl <;> cases hres
  · intro r hr t d hres
    rw [ClientRegion_resources] at hr
    rcases List.mem_append.mp hr with h | h
    · rcases List.mem_append.mp h with h | h
      · simp only [List.mem_cons, List.not_mem_nil, or_false] at h
        rcases h with rfl | rfl | rfl | rfl <;> cases hres
      · obtain ⟨w2, _, hseg⟩ := List.mem_flatMap.mp h
        obtain ⟨i, _, rfl⟩ := List.mem_map.mp hseg
        rfl
    · simp only [List.mem_cons, List.not_mem_nil, or_false] at h
      rcases h with rfl | rfl | rfl <;> cases hres
  · intro name region peer vpco refs r hr t d hres
    rw [WorkerToWorkerTGW_resources] at hr
    rcases List.mem_append.mp hr with h | h
    · simp only [List.mem_cons, List.not_mem_nil, or_false] at h
      rcases h with rfl | rfl | rfl | rfl | rfl <;> cases hres
    · obtain ⟨i, _, rfl⟩ := List.mem_map.mp h
      rfl
  · intro name region peer tgwo vpco dep refs r hr t d hres
    rw [InterRegionTransitGatewayRoute_resources] at hr
    rcases List.mem_append.mp hr with h | h
    · simp only [List.mem_cons, List.not_mem_nil, or_false] at h
      rcases h with rfl | rfl | rfl <;> cases hres
    · obtain ⟨i, _, rfl⟩ := List.mem_map.mp h
      rfl

/-- Witness for the amended C2 at the shipped configuration: the worker-side
gateway route of the (client, worker A) link. -/
theorem route_convergence_ordering_witness :
    ∃ s2 ∈ buildApp defClient defWorkers (fun _ => 1),
      s2.name ∈ (WorkerRegionTransitGatewayRoute
        "Worker-Region-TGW-Route-us-east-1" "us-east-1" defClient "us-east-1"
        ("us-east-1", "eu-west-2") ["Worker-Region-us-east-1"]
        ["Worker-Region-us-east-1"]).dependsOn ∧
      ∃ r2 ∈ s2.resources, ∃ i p cr : String,
        r2.res = Res.acceptAttachment i p cr ∧
        ((tableOwner (RouteTable.gatewayTable "us-east-1") = i ∧
            (p, "10.0.0.0/16") ∈ (defClient.region, defClient.cidr) ::
              defWorkers.map (fun w => (w.region, w.cidr))) ∨
         (tableOwner (RouteTable.gatewayTable "us-east-1") = p ∧
            (i, "10.0.0.0/16") ∈ (defClient.region, defClient.cidr) ::
              defWorkers.map (fun w => (w.region, w.cidr)))) :=
  (route_convergence_ordering defClient defWorkers (fun _ => 1)).1
    (WorkerRegionTransitGatewayRoute "Worker-Region-TGW-Route-us-east-1"
      "us-east-1" defClient "us-east-1" ("us-east-1", "eu-west-2")
      ["Worker-Region-us-east-1"] ["Worker-Region-us-east-1"]) (by decide)
    ⟨"TGW Route",
      Res.tgwRoute (RouteTable.gatewayTable "us-east-1") "10.0.0.0/16"
        (AttachmentRef.direct "us-east-1" "eu-west-2"), ["Transit Gateway"]⟩
    (by decide) (RouteTable.gatewayTable "us-east-1") "10.0.0.0/16"
    (AttachmentRef.direct "us-east-1" "eu-west-2") rfl

/-- C3: given one client descriptor and an ordered list of `N` worker
descriptors with pairwise-distinct region identifiers, provisioning creates
exactly `N + N(N-1)/2` peering attachments, and exactly one per unordered
pair of distinct participating regions — no pair duplicated, none omitted. -/
theorem topology_creates_one_attachment_per_pair (c : IClient)
    (ws : List IWorker) (nsub : String → Nat)
    (hnd : (c.region :: ws.map (fun w => w.region)).Nodup) :
    (peeringPairs (buildApp c ws nsub)).length =
        ws.length + ws.length * (ws.length - 1) / 2
    ∧ (∀ r1 r2 : String, r1 ∈ c.region :: ws.map (fun w => w.region) →
        r2 ∈ c.region :: ws.map (fun w => w.region) → r1 ≠ r2 →
        (peeringPairs (buildApp c ws nsub)).countP (pairMatch r1 r2) = 1) := by
  have hc : c.region ∉ ws.map (fun w => w.region) := (List.nodup_cons.mp hnd).1
  have hr : (ws.map (fun w => w.region)).Nodup := (List.nodup_cons.mp hnd).2
  constructor
  · rw [peeringPairs_buildApp, List.length_append, List.length_map,
      laterPairs_length, List.length_map]
  · intro r1 r2 h1 h2 hne
    rw [peeringPairs_buildApp, List.countP_append]
    rcases List.mem_cons.mp h1 with rfl | h1m
    · rcases List.mem_cons.mp h2 with rfl | h2m
      · exact absurd rfl hne
      · have e1 : (ws.map fun w => (w.region, c.region)).countP
            (pairMatch c.region r2) = 1 := by
          rw [List.countP_map]
          have he : ∀ w ∈ ws,
              ((pairMatch c.region r2 ∘ fun w => (w.region, c.region)) w = true) ↔
                (((fun x => x == r2) ∘ fun w => w.region) w = true) := by
            intro w _
            rw [Function.comp_apply, Function.comp_apply,
              pairMatch_snd_left hne]
          rw [List.countP_congr he, ← List.countP_map]
          have hcnt := List.count_eq_one_of_mem hr h2m
          simpa [List.count] using hcnt
        have e2 : (laterPairs (ws.map fun w => w.region)).countP
            (pairMatch c.region r2) = 0 := by
          rw [List.countP_eq_zero]
          intro p hp
          have hm := mem_of_mem_laterPairs hp
          simp only [pairMatch, decide_eq_true_eq]
          rintro (rfl | rfl)
          · exact hc hm.1
          · exact hc hm.2
        omega
    · rcases List.mem_cons.mp h2 with rfl | h2m
      · have e1 : (ws.map fun w => (w.region, c.region)).countP
            (pairMatch r1 c.region) = 1 := by
          rw [List.countP_map]
          have he : ∀ w ∈ ws,
              ((pairMatch r1 c.region ∘ fun w => (w.region, c.region)) w = true) ↔
                (((fun x => x == r1) ∘ fun w => w.region) w = true) := by
            intro w _
            rw [Function.comp_apply, Function.comp_apply,
              pairMatch_snd_right hne]
          rw [List.countP_congr he, ← List.countP_map]
          have hcnt := List.count_eq_one_of_mem hr h1m
          simpa [List.count] using hcnt
        have e2 : (laterPairs (ws.map fun w => w.region)).countP
            (pairMatch r1 c.region) = 0 := by
          rw [List.countP_eq_zero]
          intro p hp
          have hm := mem_of_mem_laterPairs hp
          simp only [pairMatch, decide_eq_true_eq]
          rintro (rfl | rfl)
          · exact hc hm.2
          · exact hc hm.1
        omega
      · have e1 : (ws.map fun w => (w.region, c.region)).countP
            (pairMatch r1 r2) = 0 := by
          rw [List.countP_eq_zero]
          intro p hp
          obtain ⟨w, _, rfl⟩ := List.mem_map.mp hp
          have hz1 : c.region ≠ r1 := fun h => hc (h ▸ h1m)
          have hz2 : c.region ≠ r2 := fun h => hc (h ▸ h2m)
          rw [pairMatch_snd_none hz1 hz2]
          exact Bool.false_ne_true
        rw [e1, laterPairs_countP hr h1m h2m hne]

/-- Witness for C3 at the shipped configuration: two workers give
`2 + 1 = 3` peering attachments, and the pair (client, worker A) is linked
exactly once. -/
theorem topology_creates_one_attachment_per_pair_witness :
    (peeringPairs (buildApp defClient defWorkers (fun _ => 2))).length = 3
    ∧ (peeringPairs (buildApp defClient defWorkers (fun _ => 2))).countP
        (pairMatch "eu-west-2" "us-east-1") = 1 := by
  have h := topology_creates_one_attachment_per_pair defClient defWorkers
    (fun _ => 2) (by decide)
  refine ⟨h.1, h.2 "eu-west-2" "us-east-1" (by decide) (by decide) (by decide)⟩

/-- C4: every peering attachment is created in a deterministically chosen
initiator region — for a client-worker link the worker's stack creates it
pointing at the client region, and for a worker-worker pair the
lower-indexed worker's stack creates it pointing at the higher-indexed one —
and in both cases the accompanying accept call names that attachment and
executes in the target (peer) region. -/
theorem peering_initiator_assignment (c : IClient) (ws : List IWorker)
    (nsub : String → Nat) :
    ∀ p ∈ peeringPairs (buildApp c ws nsub),
      ((p.2 = c.region ∧ p.1 ∈ ws.map (fun w => w.region)) ∨
        (∃ i j : Nat, i < j ∧
          (ws.map fun w => w.region)[i]? = some p.1 ∧
          (ws.map fun w => w.region)[j]? = some p.2))
      ∧ (p.1, p.2, p.2) ∈ acceptCalls (buildApp c ws nsub) := by
  rintro ⟨p1, p2⟩ hp
  rw [peeringPairs_buildApp] at hp
  rw [acceptCalls_buildApp]
  rcases List.mem_append.mp hp with h | h
  · obtain ⟨w, hw, he⟩ := List.mem_map.mp h
    obtain ⟨rfl, rfl⟩ : w.region = p1 ∧ c.region = p2 := by
      simpa [Prod.ext_iff] using he
    refine ⟨Or.inl ⟨rfl, List.mem_map.mpr ⟨w, hw, rfl⟩⟩, ?_⟩
    exact List.mem_append.mpr (Or.inl (List.mem_map.mpr ⟨w, hw, rfl⟩))
  · refine ⟨Or.inr (mem_laterPairs_iff.mp h), ?_⟩
    exact List.mem_append.mpr (Or.inr (List.mem_map.mpr ⟨(p1, p2), h, rfl⟩))

/-- Witness for C4 at the shipped configuration: the worker-worker
attachment is initiated by `us-east-1` (index 0) toward `us-west-2`
(index 1) and accepted in `us-west-2`. -/
theorem peering_initiator_assignment_witness :
    ((("us-east-1", "us-west-2").2 = defClient.region ∧
        ("us-east-1", "us-west-2").1 ∈ defWorkers.map (fun w => w.region)) ∨
      (∃ i j : Nat, i < j ∧
        (defWorkers.map fun w => w.region)[i]? = some ("us-east-1", "us-west-2").1 ∧
        (defWorkers.map fun w => w.region)[j]? = some ("us-east-1", "us-west-2").2))
    ∧ ("us-east-1", "us-west-2", "us-west-2") ∈
        acceptCalls (buildApp defClient defWorkers (fun _ => 1)) :=
  peering_initiator_assignment defClient defWorkers (fun _ => 1)
    ("us-east-1", "us-west-2") (by decide)

/-- C9: exactly one gateway is created per participating region (`N + 1` in
total), each region's own network is attached to its gateway by exactly one
non-peering attachment, the gateway reference is published under the
region-scoped key `tgw-param-<region>`, and the worker-to-worker wiring
creates no gateway at all — its stacks only read already-published gateway
parameters. -/
theorem one_gateway_per_region (c : IClient) (ws : List IWorker)
    (nsub : String → Nat)
    (hnd : (c.region :: ws.map (fun w => w.region)).Nodup) :
    gatewayRegions (buildApp c ws nsub) = c.region :: ws.map (fun w => w.region)
    ∧ (gatewayRegions (buildApp c ws nsub)).Nodup
    ∧ vpcAttachmentRegions (buildApp c ws nsub) =
        c.region :: ws.map (fun w => w.region)
    ∧ gatewayRegions (w2wSection c nsub ws) = []
    ∧ (c.region, "tgw-param-" ++ c.region, ParamValue.tgwRef c.region) ∈
        publishedParams (buildApp c ws nsub)
    ∧ (∀ w ∈ ws,
        (w.region, "tgw-param-" ++ w.region, ParamValue.tgwRef w.region) ∈
          publishedParams (buildApp c ws nsub))
    ∧ (∀ name region vpcOwner refs (peer : IWorker),
        ⟨"TGW Param - " ++ peer.region,
          .readParam ("tgw-param-" ++ peer.region) peer.region, []⟩ ∈
            (WorkerToWorkerTGW name region peer vpcOwner nsub refs).resources ∧
        ⟨"TGW Param - " ++ region,
          .readParam ("tgw-param-" ++ region) region, []⟩ ∈
            (WorkerToWorkerTGW name region peer vpcOwner nsub refs).resources) := by
  refine ⟨gatewayRegions_buildApp c ws nsub, ?_,
    vpcAttachmentRegions_buildApp c ws nsub, gateways_w2wSection c nsub ws,
    ?_, ?_, ?_⟩
  · rw [gatewayRegions_buildApp]
    exact hnd
  · rw [publishedParams_buildApp]
    exact List.mem_append.mpr (Or.inl (List.mem_append.mpr (Or.inl
      (List.mem_cons_self _ _))))
  · intro w hw
    rw [publishedParams_buildApp]
    refine List.mem_append.mpr (Or.inl (List.mem_append.mpr (Or.inr ?_)))
    exact List.mem_flatMap.mpr ⟨w, hw, List.mem_cons_self _ _⟩
  · intro name region vpcOwner refs peer
    rw [WorkerToWorkerTGW_resources]
    constructor
    · exact List.mem_append.mpr (Or.inl (List.mem_cons_self _ _))
    · refine List.mem_append.mpr (Or.inl ?_)
      exact List.mem_cons.mpr (Or.inr (List.mem_cons_self _ _))

/-- Witness for C9 at the shipped configuration. -/
theorem one_gateway_per_region_witness :
    gatewayRegions (buildApp defClient defWorkers (fun _ => 1)) =
      ["eu-west-2", "us-east-1", "us-west-2"] :=
  (one_gateway_per_region defClient defWorkers (fun _ => 1) (by decide)).1

/-- C7: fetching a Parameter Exchange key never published in the queried
(reachable) region fails with `ParameterNotFound`; the reader issues exactly
one SDK call — a single `SSM getParameter`, no retry, no polling — and its
totality rules out hanging; the failure is fatal: a run whose next step is
that fetch aborts with `ParameterNotFound`, and none of the dependent later
steps execute, whatever they are. -/
theorem fetch_unpublished_fails_fatally (reach : String → Bool)
    (store : List (String × String × ParamValue)) (region key : String)
    (hreach : reach region = true)
    (h : ∀ v, (region, key, v) ∉ store) :
    fetchParam reach store region key =
        Except.error FetchError.parameterNotFound
    ∧ ssmParameterReaderCalls key region =
        [⟨"SSM", "getParameter", key, region⟩]
    ∧ ∀ rest : List Step,
        runSteps reach (Step.read region key :: rest) store =
          Except.error FetchError.parameterNotFound := by
  have hfind : store.find? (fun e => e.1 == region && e.2.1 == key) = none := by
    rw [List.find?_eq_none]
    rintro ⟨r', k', v⟩ he hp
    simp only [Bool.and_eq_true, beq_iff_eq] at hp
    obtain ⟨rfl, rfl⟩ := hp
    exact h v he
  have hfetch : fetchParam reach store region key =
      Except.error FetchError.parameterNotFound := by
    simp [fetchParam, hreach, hfind]
  refine ⟨hfetch, rfl, ?_⟩
  intro rest
  simp only [runSteps, hfetch]

/-- Witness for C7: fetching the client's gateway key from an empty store. -/
theorem fetch_unpublished_fails_fatally_witness :
    fetchParam (fun _ => true) [] "eu-west-2" "tgw-param-eu-west-2" =
        Except.error FetchError.parameterNotFound
    ∧ ssmParameterReaderCalls "tgw-param-eu-west-2" "eu-west-2" =
        [⟨"SSM", "getParameter", "tgw-param-eu-west-2", "eu-west-2"⟩]
    ∧ ∀ rest : List Step,
        runSteps (fun _ => true)
            (Step.read "eu-west-2" "tgw-param-eu-west-2" :: rest) [] =
          Except.error FetchError.parameterNotFound :=
  fetch_unpublished_fails_fatally (fun _ => true) [] "eu-west-2"
    "tgw-param-eu-west-2" rfl (fun _ => List.not_mem_nil _)

/-- C8: in the shipped default scenario (client `10.0.0.0/16`, worker A
`10.1.0.0/16`, worker B `10.2.0.0/16`), exactly 3 peering attachments are
created — (A, client), (B, client), (A, B) — and each is routed
bidirectionally: the gateway-level route entries are exactly 6, one in each
endpoint's gateway table per attachment, with destination the peer's CIDR
and target resolving to that pair's attachment; and on each side of each
pair every private subnet gets exactly one route entry toward the peer's
CIDR, for `2 · nsub(region)` subnet-level entries per region. -/
theorem default_scenario_attachments_and_routes (nsub : String → Nat) :
    peeringPairs (buildApp defClient defWorkers nsub) =
        [("us-east-1", "eu-west-2"), ("us-west-2", "eu-west-2"),
         ("us-east-1", "us-west-2")]
    ∧ (tgwRouteEntries (buildApp defClient defWorkers nsub)).map
        (fun e => (e.1, e.2.1,
          resolveRef (buildApp defClient defWorkers nsub) e.2.2)) =
        [ (RouteTable.gatewayTable "us-east-1", "10.0.0.0/16",
            some ("us-east-1", "eu-west-2")),
          (RouteTable.gatewayTable "eu-west-2", "10.1.0.0/16",
            some ("us-east-1", "eu-west-2")),
          (RouteTable.gatewayTable "us-west-2", "10.0.0.0/16",
            some ("us-west-2", "eu-west-2")),
          (RouteTable.gatewayTable "eu-west-2", "10.2.0.0/16",
            some ("us-west-2", "eu-west-2")),
          (RouteTable.gatewayTable "us-east-1", "10.2.0.0/16",
            some ("us-east-1", "us-west-2")),
          (RouteTable.gatewayTable "us-west-2", "10.1.0.0/16",
            some ("us-east-1", "us-west-2")) ]
    ∧ (∀ r d : String,
        (r, d) ∈ [("eu-west-2", "10.1.0.0/16"), ("eu-west-2", "10.2.0.0/16"),
          ("us-east-1", "10.0.0.0/16"), ("us-west-2", "10.0.0.0/16"),
          ("us-east-1", "10.2.0.0/16"), ("us-west-2", "10.1.0.0/16")] →
        ∀ i, i < nsub r →
          (subnetRouteKeys (buildApp defClient defWorkers nsub)).count
            (RouteTable.subnetTable r i, d) = 1)
    ∧ (subnetRouteKeys (buildApp defClient defWorkers nsub)).length =
        2 * nsub "eu-west-2" + 2 * nsub "us-east-1" + 2 * nsub "us-west-2" := by
  refine ⟨?_, ?_, ?_, ?_⟩
  · rw [peeringPairs_buildApp]
    decide
  · have happ : tgwRouteEntries (buildApp defClient defWorkers nsub) =
        [ (RouteTable.gatewayTable "us-east-1", "10.0.0.0/16",
            AttachmentRef.direct "us-east-1" "eu-west-2"),
          (RouteTable.gatewayTable "eu-west-2", "10.1.0.0/16",
            AttachmentRef.fetched "us-east-1" "tgw-attachmentid-us-east-1"),
          (RouteTable.gatewayTable "us-west-2", "10.0.0.0/16",
            AttachmentRef.direct "us-west-2" "eu-west-2"),
          (RouteTable.gatewayTable "eu-west-2", "10.2.0.0/16",
            AttachmentRef.fetched "us-west-2" "tgw-attachmentid-us-west-2"),
          (RouteTable.gatewayTable "us-east-1", "10.2.0.0/16",
            AttachmentRef.direct "us-east-1" "us-west-2"),
          (RouteTable.gatewayTable "us-west-2", "10.1.0.0/16",
            AttachmentRef.fetched "us-east-1"
              "tgw-attachmentid-us-east-1-us-west-2") ] := by
      rw [tgwRouteEntries_buildApp]
      decide
    have hf1 : resolveRef (buildApp defClient defWorkers nsub)
        (AttachmentRef.fetched "us-east-1" "tgw-attachmentid-us-east-1") =
        some ("us-east-1", "eu-west-2") := by
      simp only [resolveRef, publishedParams_buildApp]
      decide
    have hf2 : resolveRef (buildApp defClient defWorkers nsub)
        (AttachmentRef.fetched "us-west-2" "tgw-attachmentid-us-west-2") =
        some ("us-west-2", "eu-west-2") := by
      simp only [resolveRef, publishedParams_buildApp]
      decide
    have hf3 : resolveRef (buildApp defClient defWorkers nsub)
        (AttachmentRef.fetched "us-east-1"
          "tgw-attachmentid-us-east-1-us-west-2") =
        some ("us-east-1", "us-west-2") := by
      simp only [resolveRef, publishedParams_buildApp]
      decide
    rw [happ]
    simp only [List.map_cons, List.map_nil, hf1, hf2, hf3]
    rfl
  · intro r d hrd i hi
    rw [subnetRouteKeys_buildApp]
    simp only [defWorkers, defClient, clientSubnetKeys, workerSubnetKeys,
      pairSubnetKeys, w2wSubnetKeys, List.flatMap_cons, List.flatMap_nil,
      List.append_nil, List.count_append, count_subnet_seg]
    simp only [List.mem_cons, List.not_mem_nil, or_false,
      Prod.mk.injEq] at hrd
    rcases hrd with ⟨rfl, rfl⟩ | ⟨rfl, rfl⟩ | ⟨rfl, rfl⟩ | ⟨rfl, rfl⟩ |
      ⟨rfl, rfl⟩ | ⟨rfl, rfl⟩ <;>
      simp +decide [hi]
  · rw [subnetRouteKeys_buildApp]
    simp only [defWorkers, defClient, clientSubnetKeys, workerSubnetKeys,
      pairSubnetKeys, w2wSubnetKeys, List.flatMap_cons, List.flatMap_nil,
      List.append_nil, List.length_append, List.length_map, List.length_range]
    omega

/-- Witness for C8: the first private subnet of the client region has
exactly one route entry toward worker A's CIDR. -/
theorem default_scenario_attachments_and_routes_witness :
    (subnetRouteKeys (buildApp defClient defWorkers (fun _ => 1))).count
        (RouteTable.subnetTable "eu-west-2" 0, "10.1.0.0/16") = 1 :=
  (default_scenario_attachments_and_routes (fun _ => 1)).2.2.1 "eu-west-2"
    "10.1.0.0/16" (by decide) 0 (by decide)

end CRD
